import Mathlib

/-!
# FFNx battle-camera script simulator (`src/ff7/camera.cpp`)

A shallow embedding of `patchCameraScriptArg`, `getCameraScriptPointer`,
`simulateCameraScript`, the camera function dispatch shim and the two dialect
wrappers with their opcode tables, followed by the properties proved about
them.

Modelling conventions.

* Host memory is a function from 32-bit addresses to bytes.  A byte read is
  `mem a % 256`, a byte store keeps `v % 256`.  `byte` is the Windows
  `unsigned char`.
* A pointer plus an index is taken modulo `2 ^ 32` (the host is a 32-bit
  process, so `(DWORD)(scriptPointer + position)` is the pointer itself).
* `uint16_t` arithmetic is taken modulo `2 ^ 16`; an `int` converted to `byte`
  or `uint16_t` is reduced with the (non-negative) integer remainder.
* `std::unordered_map<byte, int>` is an association list searched from the
  front, `std::unordered_set` a duplicate-free list with membership test.
* The logging collaborator is the list of messages handed to it, oldest first.
* `while (isScriptActive)` is unrolled with a bound on the number of loop
  iterations; running out of iterations is `none`.
* Native game functions called through `ff7_externals` are parameters: arbitrary
  functions on the game state.
* The cursor arrays, the handle array, `field_4` and the special-function flags
  are components of the game state of their own, apart from the script bytes.
-/

namespace FFNx

/-! ## Data model -/

/-- Messages handed to the logging collaborator (`ffnx_trace` / `ffnx_error`). -/
inductive LogMsg where
  /-- Trace: START LIST OF CAMERA SCRIPT OPCODE AND ARGS. -/
  | traceStart
  /-- Trace: the opcode just read. -/
  | traceOpcode (opcode : Nat)
  /-- Trace: the byte peeked by the 0xFE case. -/
  | traceFE (opcode : Nat)
  /-- Trace: END LIST OF CAMERA SCRIPT OPCODE AND ARGS. -/
  | traceEnd
  /-- Error: Script arg multiplication out of bound. -/
  | errorOutOfBound (address before after : Nat)
  /-- Error: Strange OpCode in camera script. -/
  | errorStrangeOpCode (opcode : Nat)
  /-- Trace of `ff7_execute_camera_functions`: function started. -/
  | traceFunctionStarted (function : Nat)
  /-- Trace of a dialect wrapper (`sub5C3FD5` tells which): its three parameters. -/
  | traceParameters (sub5C3FD5 : Bool) (variationIndex : Int) (param_2 : Nat)
      (cameraScriptIdx : Int)
  /-- Error of a dialect wrapper: Battle camera final position does not match. -/
  | errorPositionMismatch (sub5C3FD5 : Bool) (simulation real : Nat)
  /-- Error of a dialect wrapper: Battle camera final frames to wait does not match. -/
  | errorFramesMismatch (sub5C3FD5 : Bool) (simulation real : Nat)
  deriving DecidableEq, Repr

/-- Process-wide state touched by the camera code: host memory, the global
`scriptArgAddressPatched`, the log, and the two trace flags. -/
structure Host where
  mem : Nat → Nat
  scriptArgAddressPatched : List Nat
  log : List LogMsg
  trace_all : Bool
  trace_battle_camera : Bool

/-- Opcode tables handed to the simulator: `numArgsOpCode`,
`argIdxDoubleOpCode` and `deactiveOpCodes`. -/
structure OpcodeTables where
  numArgsOpCode : List (Nat × Int)
  argIdxDoubleOpCode : List (Nat × Int)
  deactiveOpCodes : List Nat

/-- Local variables of `simulateCameraScript` plus the process-wide state. -/
structure SimState where
  host : Host
  currentPosition : Nat
  framesToWait : Nat
  isScriptActive : Bool

/-! ## Machine arithmetic and memory -/

/-- Pointer plus index in the 32-bit address space. -/
def ptrAdd (pointer index : Nat) : Nat := (pointer + index) % 4294967296

/-- Conversion of an `int` to `byte`. -/
def toByte (x : Int) : Nat := (x % 256).toNat

/-- Conversion of an `int` to `uint16_t`. -/
def toUInt16 (x : Int) : Nat := (x % 65536).toNat

/-- Byte load. -/
def readByte (mem : Nat → Nat) (address : Nat) : Nat := mem address % 256

/-- Byte store. -/
def writeByte (mem : Nat → Nat) (address value : Nat) : Nat → Nat :=
  fun a => if a = address then value % 256 else mem a

/-- Lookup in an `unordered_map<byte, int>` (`find` / `operator[]`). -/
def mapFind (key : Nat) : List (Nat × Int) → Option Int
  | [] => none
  | (k, v) :: rest => if k = key then some v else mapFind key rest

/-- Insertion into an `unordered_set`: an element already present is not
added again. -/
def setInsert (a : Nat) (s : List Nat) : List Nat := if a ∈ s then s else a :: s

/-- Whether tracing is enabled: `trace_all || trace_battle_camera`. -/
def Host.tracing (h : Host) : Bool := h.trace_all || h.trace_battle_camera

/-- Unconditional `ffnx_error` / `ffnx_trace` call. -/
def Host.emit (h : Host) (m : LogMsg) : Host := { h with log := h.log ++ [m] }

/-- A logging call guarded by `if (trace_all || trace_battle_camera)`. -/
def Host.emitIfTracing (h : Host) (m : LogMsg) : Host :=
  if h.tracing then h.emit m else h

/-! ## `patchCameraScriptArg` -/

/-- Embedding of `patchCameraScriptArg(byte *scriptPointer, byte position)`.
`position` is the already converted `byte` argument. -/
def patchCameraScriptArg (h : Host) (scriptPointer position : Nat) : Host :=
  let address := ptrAdd scriptPointer position
  let h1 : Host :=
    if address ∈ h.scriptArgAddressPatched then h
    else
      let beforeValue := readByte h.mem address
      let mem1 := writeByte h.mem address (readByte h.mem address * 2)
      let h2 : Host := { h with mem := mem1 }
      if beforeValue * 2 ≠ readByte mem1 address then
        h2.emit (.errorOutOfBound address beforeValue (readByte mem1 address))
      else h2
  { h1 with scriptArgAddressPatched := setInsert address h1.scriptArgAddressPatched }

/-! ## `simulateCameraScript` -/

/-- One iteration of the body of `while (isScriptActive)`. -/
def loopBody (scriptPtr : Nat) (t : OpcodeTables) (s : SimState) : SimState :=
  let currentOpCode := readByte s.host.mem (ptrAdd scriptPtr s.currentPosition)
  let currentPosition := (s.currentPosition + 1) % 65536
  let host := s.host.emitIfTracing (.traceOpcode currentOpCode)
  if currentOpCode = 0xF4 then
    if s.framesToWait ≠ 0 then
      { host := host
        currentPosition := (currentPosition + 65535) % 65536
        framesToWait := (s.framesToWait + 65535) % 65536
        isScriptActive := false }
    else
      { s with host := host, currentPosition := currentPosition }
  else if currentOpCode = 0xF5 then
    let host1 := patchCameraScriptArg host scriptPtr (currentPosition % 256)
    { s with
      host := host1
      framesToWait := readByte host1.mem (ptrAdd scriptPtr currentPosition)
      currentPosition := (currentPosition + 1) % 65536 }
  else if currentOpCode = 0xFE then
    if s.framesToWait = 0 then
      let peeked := readByte host.mem (ptrAdd scriptPtr currentPosition)
      let host1 := host.emitIfTracing (.traceFE peeked)
      if peeked = 192 then
        { s with host := host1, framesToWait := 0, currentPosition := 0 }
      else
        { s with host := host1, currentPosition := currentPosition }
    else
      { s with host := host, currentPosition := currentPosition }
  else
    match mapFind currentOpCode t.numArgsOpCode with
    | some numArgs =>
      let host1 :=
        match mapFind currentOpCode t.argIdxDoubleOpCode with
        | some argIdx =>
          patchCameraScriptArg host scriptPtr (toByte ((currentPosition : Int) + argIdx))
        | none => host
      { host := host1
        currentPosition := toUInt16 ((currentPosition : Int) + numArgs)
        framesToWait := s.framesToWait
        isScriptActive := if currentOpCode ∈ t.deactiveOpCodes then false else s.isScriptActive }
    | none =>
      { host := if host.tracing then host.emit (.errorStrangeOpCode currentOpCode) else host
        currentPosition := currentPosition
        framesToWait := s.framesToWait
        isScriptActive := false }

/-- The loop `while (isScriptActive) body`, allowed at most `fuel` iterations. -/
def whileActive (body : SimState → SimState) : Nat → SimState → Option SimState
  | 0, s => if s.isScriptActive then none else some s
  | fuel + 1, s => if s.isScriptActive then whileActive body fuel (body s) else some s

/-- Embedding of `simulateCameraScript`: the returned pair
`(currentPosition, framesToWait)` and the process-wide state afterwards. -/
def simulateCameraScript (fuel : Nat) (h : Host) (scriptPtr currentPosition framesToWait : Nat)
    (t : OpcodeTables) : Option ((Nat × Nat) × Host) :=
  let h0 := h.emitIfTracing .traceStart
  match whileActive (loopBody scriptPtr t) fuel
      { host := h0, currentPosition := currentPosition, framesToWait := framesToWait,
        isScriptActive := true } with
  | none => none
  | some s => some ((s.currentPosition, s.framesToWait), s.host.emitIfTracing .traceEnd)

/-! ## The two dialect tables -/

/-- Tables built in `ff7_battle_camera_sub_5C3FD5`. -/
def tables_5C3FD5 : OpcodeTables where
  numArgsOpCode :=
    [(0xD8, 9), (0xD9, 0), (0xDB, 0), (0xDC, 0), (0xDD, 1), (0xDE, 1), (0xDF, 0), (0xE0, 2),
     (0xE1, 0), (0xE2, 1), (0xE3, 9), (0xE4, 8), (0xE5, 8), (0xE6, 7), (0xE8, 8), (0xEA, 8),
     (0xEC, 9), (0xF0, 8), (0xF4, -1), (0xF5, 1), (0xF8, 7), (0xF9, 7), (0xFA, 6), (0xFE, 0),
     (0xFF, -1)]
  argIdxDoubleOpCode :=
    [(0xD8, 8), (0xE2, 0), (0xE3, 8), (0xE4, 7), (0xE5, 7), (0xE6, 6), (0xE8, 7), (0xEA, 7),
     (0xEC, 8)]
  deactiveOpCodes := [0xF0, 0xF8, 0xF9, 0xFF]

/-- Tables built in `ff7_battle_camera_sub_5C23D1`. -/
def tables_5C23D1 : OpcodeTables where
  numArgsOpCode :=
    [(0xD5, 2), (0xD6, 0), (0xD7, 2), (0xD8, 9), (0xD9, 0), (0xDA, 0), (0xDB, 0), (0xDC, 0),
     (0xDD, 1), (0xDE, 1), (0xDF, 0), (0xE0, 2), (0xE1, 0), (0xE2, 1), (0xE3, 9), (0xE4, 8),
     (0xE5, 8), (0xE6, 7), (0xE7, 8), (0xE9, 8), (0xEB, 9), (0xEF, 8), (0xF0, 7), (0xF1, 0),
     (0xF2, 5), (0xF3, 5), (0xF4, -1), (0xF5, 1), (0xF7, 7), (0xF8, 12), (0xF9, 6), (0xFE, 0),
     (0xFF, -1)]
  argIdxDoubleOpCode :=
    [(0xD8, 8), (0xE2, 0), (0xE3, 8), (0xE4, 7), (0xE5, 7), (0xE6, 6), (0xEB, 0)]
  deactiveOpCodes := [0xEF, 0xF0, 0xF7, 0xFF]

/-- A table outside the two dialects: opcode 0x01 is recognised, not terminal, and has
argument count -1. -/
def stallingTables : OpcodeTables where
  numArgsOpCode := [(0x01, -1)]
  argIdxDoubleOpCode := []
  deactiveOpCodes := []

/-- An opcode table with no entries at all. -/
def emptyTables : OpcodeTables where
  numArgsOpCode := []
  argIdxDoubleOpCode := []
  deactiveOpCodes := []

/-! ## Concrete inputs used by the examples -/

/-- Host memory holding `bytes` from address `base` on and zero elsewhere. -/
def memOfList (base : Nat) (bytes : List Nat) : Nat → Nat :=
  fun a => if base ≤ a then bytes.getD (a - base) 0 else 0

/-- A fresh process: the given memory, nothing patched, nothing logged. -/
def freshHost (mem : Nat → Nat) (tracing : Bool) : Host where
  mem := mem
  scriptArgAddressPatched := []
  log := []
  trace_all := false
  trace_battle_camera := tracing

/-- A script longer than 256 bytes at address 1000: the byte 7 at index 45, the opcode
0xE2 (one argument, doubled-argument offset 0) at index 300 and its argument 10 at index
301; every other byte is zero. -/
def longScriptMem : Nat → Nat :=
  fun a => if a = 1045 then 7 else if a = 1300 then 0xE2 else if a = 1301 then 10 else 0

/-! ## `getCameraScriptPointer` -/

/-- Modelled from the spec: the declaration of `ff7_externals` (`ff7.h`) is not among the
sources. Its fields used by the resolver are host addresses: two fixed script buffers,
the two history tables and the counter indexing them, the word holding the origin of
the script table (`battle_camera_scripts_9A13BC`) and the word holding the script-offset
base (`battle_camera_script_offset`). History tables and the two words are 32 bits
wide. -/
structure Externals where
  battle_camera_scripts_8FEE30 : Nat
  battle_camera_scripts_8FEE2C : Nat
  battle_camera_scripts_901270 : Nat
  battle_camera_scripts_9010D0 : Nat
  battle_camera_script_index : Nat
  battle_camera_scripts_9A13BC : Nat
  battle_camera_script_offset : Nat

/-- Conversion of an integer to a 32-bit address or `DWORD`. -/
def toUInt32 (x : Int) : Nat := (x % 4294967296).toNat

/-- Conversion of an integer to a 32-bit `int`. -/
def toInt32 (x : Int) : Int := (x + 2147483648) % 4294967296 - 2147483648

/-- Little-endian 32-bit load. -/
def readDWord (mem : Nat → Nat) (address : Nat) : Nat :=
  readByte mem address + 256 * readByte mem (ptrAdd address 1)
    + 65536 * readByte mem (ptrAdd address 2) + 16777216 * readByte mem (ptrAdd address 3)

/-- Embedding of `getCameraScriptPointer(char variationIndex, short cameraScriptIdx,
bool isSub5C3FD5)`; the result is the address of the script buffer. -/
def getCameraScriptPointer (ext : Externals) (mem : Nat → Nat)
    (variationIndex cameraScriptIdx : Int) (isSub5C3FD5 : Bool) : Nat :=
  let internalOffset : Int := if isSub5C3FD5 then 4 else 0
  if cameraScriptIdx = -1 then
    if isSub5C3FD5 then ext.battle_camera_scripts_8FEE30 else ext.battle_camera_scripts_8FEE2C
  else if cameraScriptIdx = -2 then
    if isSub5C3FD5 then
      readDWord mem
        (ptrAdd ext.battle_camera_scripts_901270 (4 * readDWord mem ext.battle_camera_script_index))
    else
      readDWord mem
        (ptrAdd ext.battle_camera_scripts_9010D0 (4 * readDWord mem ext.battle_camera_script_index))
  else if cameraScriptIdx = -3 then
    let outerOffset : Int :=
      toInt32 (variationIndex * 4
        + readDWord mem
            (toUInt32 (readDWord mem ext.battle_camera_scripts_9A13BC + 0x8 + internalOffset))
        - readDWord mem ext.battle_camera_script_offset)
    let finalOffset : Int :=
      toInt32 (readDWord mem
          (toUInt32 (readDWord mem ext.battle_camera_scripts_9A13BC + outerOffset))
        - readDWord mem ext.battle_camera_script_offset)
    toUInt32 (readDWord mem ext.battle_camera_scripts_9A13BC + finalOffset)
  else
    let outerOffset : Int :=
      toInt32 ((3 * cameraScriptIdx + variationIndex) * 4
        + readDWord mem
            (toUInt32 (readDWord mem ext.battle_camera_scripts_9A13BC + internalOffset))
        - readDWord mem ext.battle_camera_script_offset)
    let finalOffset : Int :=
      toInt32 (readDWord mem
          (toUInt32 (readDWord mem ext.battle_camera_scripts_9A13BC + outerOffset))
        - readDWord mem ext.battle_camera_script_offset)
    toUInt32 (readDWord mem ext.battle_camera_scripts_9A13BC + finalOffset)

/-- The two-level offset chain in the words of the specification: the outer offset is
`4 * index` plus the table-header word found `headerAt` bytes after the table origin
minus the script-offset base; the result is the table origin plus the word read at
origin + outer minus the base. Addresses are 32 bits wide. -/
def offsetChain (mem : Nat → Nat) (origin base : Nat) (headerAt index : Int) : Nat :=
  toUInt32 (origin
    + readDWord mem
        (toUInt32 (origin + (4 * index + readDWord mem (toUInt32 (origin + headerAt)) - base)))
    - base)

/-- Externals for the examples: fixed buffers at 1000, the table origin word at 1000
and the script-offset base word at 1004. -/
def sampleExternals : Externals where
  battle_camera_scripts_8FEE30 := 1000
  battle_camera_scripts_8FEE2C := 1000
  battle_camera_scripts_901270 := 0
  battle_camera_scripts_9010D0 := 0
  battle_camera_script_index := 0
  battle_camera_scripts_9A13BC := 1000
  battle_camera_script_offset := 1004

/-- A script table for the examples: origin 2000 (stored at 1000), script-offset base 8
(stored at 1004), header words 16 (at origin + 0) and 32 (at origin + 8), and the
words 32 at origin + 8 and 108 at origin + 24. -/
def resolverMem : Nat → Nat :=
  fun a =>
    if a = 1000 then 0xD0 else if a = 1001 then 0x07 else if a = 1004 then 8
    else if a = 2000 then 16 else if a = 2008 then 32 else if a = 2024 then 108 else 0

/-! ## The camera function dispatch shim and the dialect wrappers -/

/-- Modelled from the spec: the declaration of `battle_camera_position` (`ff7.h`) is not
among the sources. An entry carries the externally observed cursor state,
`current_position` and `frames_to_wait`, both 16-bit values (spec, Cursor State). -/
structure CameraPosition where
  current_position : Nat
  frames_to_wait : Nat
  deriving DecidableEq, Repr

/-- Modelled from the spec: the game state the shim and the wrappers work on, besides
the process state `Host`: the two `battle_camera_position` arrays (indexed by the
`char` variation index), the 16 native handles `camera_fn_array`, the `field_4` of the
16 `battle_camera_data` entries and the global `isSpecialCameraFunction`. The arrays
are separate from the script bytes in `host.mem`. -/
structure Game where
  host : Host
  battle_camera_position_BE1130 : Int → CameraPosition
  battle_camera_position_BE10F0 : Int → CameraPosition
  camera_fn_array : Nat → Nat
  battle_camera_data_field_4 : Nat → Int
  isSpecialCameraFunction : Nat → Bool

/-- Embedding of `ff7_add_fn_to_camera_fn_special`. The native allocator
`add_fn_to_camera_fn_array` is a parameter: it returns the slot index and the game
state it leaves. -/
def ff7_add_fn_to_camera_fn_special (add_fn_to_camera_fn_array : Nat → Game → Nat × Game)
    (function : Nat) (g : Game) : Nat × Game :=
  let fnIdx := (add_fn_to_camera_fn_array function g).1
  let g1 := (add_fn_to_camera_fn_array function g).2
  (fnIdx, { g1 with isSpecialCameraFunction := Function.update g1.isSpecialCameraFunction fnIdx true })

/-- Body of the `for` loop of `ff7_execute_camera_functions` for one `index`.
`toField4` is the conversion of the `int` product to the declared type of `field_4`
(`ff7.h`, not among the sources). -/
def compensateSlot (toField4 : Int → Int) (g : Game) (index : Nat) : Game :=
  if g.camera_fn_array index ≠ 0 ∧ g.isSpecialCameraFunction index = true then
    { g with
      host := g.host.emitIfTracing (.traceFunctionStarted (g.camera_fn_array index))
      battle_camera_data_field_4 :=
        Function.update g.battle_camera_data_field_4 index
          (toField4 (g.battle_camera_data_field_4 index * 2))
      isSpecialCameraFunction := Function.update g.isSpecialCameraFunction index false }
  else g

/-- The loop `for (int index = 0; index < 16; index++)` of
`ff7_execute_camera_functions`: the pass before the native dispatch. -/
def compensationPass (toField4 : Int → Int) (g : Game) : Game :=
  (List.range 16).foldl (compensateSlot toField4) g

/-- Embedding of `ff7_execute_camera_functions`; the native `execute_camera_functions`
is a parameter. -/
def ff7_execute_camera_functions (toField4 : Int → Int) (execute_camera_functions : Game → Game)
    (g : Game) : Game :=
  execute_camera_functions (compensationPass toField4 g)

/-- The first part of `ff7_battle_camera_sub_5C3FD5` (up to and including the call of
`simulateCameraScript`): the parameter trace, the script pointer, the starting cursor
read from `battle_camera_position_BE1130[variationIndex]` into `uint16_t` locals, and the
simulation with the tables of this dialect. -/
def ff7_battle_camera_sub_5C3FD5_simulation (fuel : Nat) (ext : Externals)
    (variationIndex : Int) (param_2 : Nat) (cameraScriptIdx : Int) (g : Game) :
    Option ((Nat × Nat) × Host) :=
  let host0 := g.host.emitIfTracing (.traceParameters true variationIndex param_2 cameraScriptIdx)
  let scriptPtr := getCameraScriptPointer ext host0.mem variationIndex cameraScriptIdx true
  let currentPosition :=
    if (g.battle_camera_position_BE1130 variationIndex).current_position = 255 then 0
    else (g.battle_camera_position_BE1130 variationIndex).current_position % 65536
  let framesToWait :=
    if (g.battle_camera_position_BE1130 variationIndex).current_position = 255 then 0
    else (g.battle_camera_position_BE1130 variationIndex).frames_to_wait % 65536
  simulateCameraScript fuel host0 scriptPtr currentPosition framesToWait tables_5C3FD5

/-- Embedding of `ff7_battle_camera_sub_5C3FD5`. The native executor
`battle_camera_sub_5C3FD5` is a parameter acting on the whole game state. -/
def ff7_battle_camera_sub_5C3FD5 (fuel : Nat) (ext : Externals)
    (battle_camera_sub_5C3FD5 : Int → Nat → Int → Game → Game)
    (variationIndex : Int) (param_2 : Nat) (cameraScriptIdx : Int) (g : Game) : Option Game :=
  match ff7_battle_camera_sub_5C3FD5_simulation fuel ext variationIndex param_2
      cameraScriptIdx g with
  | none => none
  | some results =>
    let currentPosition := results.1.1
    let framesToWait := results.1.2
    let g1 := battle_camera_sub_5C3FD5 variationIndex param_2 cameraScriptIdx
      { g with host := results.2 }
    let g2 : Game :=
      if currentPosition ≠ (g1.battle_camera_position_BE1130 variationIndex).current_position then
        { g1 with host := g1.host.emit (.errorPositionMismatch true currentPosition
            (g1.battle_camera_position_BE1130 variationIndex).current_position) }
      else g1
    let g3 : Game :=
      if framesToWait ≠ (g2.battle_camera_position_BE1130 variationIndex).frames_to_wait then
        { g2 with host := g2.host.emit (.errorFramesMismatch true framesToWait
            (g2.battle_camera_position_BE1130 variationIndex).frames_to_wait) }
      else g2
    some g3

/-- The first part of `ff7_battle_camera_sub_5C23D1` (up to and including the call of
`simulateCameraScript`), reading `battle_camera_position_BE10F0[variationIndex]`. -/
def ff7_battle_camera_sub_5C23D1_simulation (fuel : Nat) (ext : Externals)
    (variationIndex : Int) (param_2 : Nat) (cameraScriptIdx : Int) (g : Game) :
    Option ((Nat × Nat) × Host) :=
  let host0 := g.host.emitIfTracing (.traceParameters false variationIndex param_2 cameraScriptIdx)
  let scriptPtr := getCameraScriptPointer ext host0.mem variationIndex cameraScriptIdx false
  let currentPosition :=
    if (g.battle_camera_position_BE10F0 variationIndex).current_position = 255 then 0
    else (g.battle_camera_position_BE10F0 variationIndex).current_position % 65536
  let framesToWait :=
    if (g.battle_camera_position_BE10F0 variationIndex).current_position = 255 then 0
    else (g.battle_camera_position_BE10F0 variationIndex).frames_to_wait % 65536
  simulateCameraScript fuel host0 scriptPtr currentPosition framesToWait tables_5C23D1

/-- Embedding of `ff7_battle_camera_sub_5C23D1`. The native executor
`battle_camera_sub_5C23D1` is a parameter acting on the whole game state. -/
def ff7_battle_camera_sub_5C23D1 (fuel : Nat) (ext : Externals)
    (battle_camera_sub_5C23D1 : Int → Nat → Int → Game → Game)
    (variationIndex : Int) (param_2 : Nat) (cameraScriptIdx : Int) (g : Game) : Option Game :=
  match ff7_battle_camera_sub_5C23D1_simulation fuel ext variationIndex param_2
      cameraScriptIdx g with
  | none => none
  | some results =>
    let currentPosition := results.1.1
    let framesToWait := results.1.2
    let g1 := battle_camera_sub_5C23D1 variationIndex param_2 cameraScriptIdx
      { g with host := results.2 }
    let g2 : Game :=
      if currentPosition ≠ (g1.battle_camera_position_BE10F0 variationIndex).current_position then
        { g1 with host := g1.host.emit (.errorPositionMismatch false currentPosition
            (g1.battle_camera_position_BE10F0 variationIndex).current_position) }
      else g1
    let g3 : Game :=
      if framesToWait ≠ (g2.battle_camera_position_BE10F0 variationIndex).frames_to_wait then
        { g2 with host := g2.host.emit (.errorFramesMismatch false framesToWait
            (g2.battle_camera_position_BE10F0 variationIndex).frames_to_wait) }
      else g2
    some g3

/-- A native executor for the examples: it leaves the cursor of the given variation at
position 11 with no frames to wait, in both arrays. -/
def sampleNative : Int → Nat → Int → Game → Game :=
  fun variationIndex _ _ g =>
    { g with
      battle_camera_position_BE1130 :=
        Function.update g.battle_camera_position_BE1130 variationIndex
          { current_position := 11, frames_to_wait := 0 }
      battle_camera_position_BE10F0 :=
        Function.update g.battle_camera_position_BE10F0 variationIndex
          { current_position := 11, frames_to_wait := 0 } }

/-- A game state for the examples: the given process state, every cursor entry
uninitialised (position 255), handles `fn`, every `field_4` equal to 100 and the given
flags. -/
def sampleGame (h : Host) (fn : Nat → Nat) (flags : Nat → Bool) : Game where
  host := h
  battle_camera_position_BE1130 := fun _ => { current_position := 255, frames_to_wait := 7 }
  battle_camera_position_BE10F0 := fun _ => { current_position := 255, frames_to_wait := 7 }
  camera_fn_array := fn
  battle_camera_data_field_4 := fun _ => 100
  isSpecialCameraFunction := flags

/-! ## States up to the log -/

/-- The process state with the log emptied: what remains is memory, the Patched-Address
Set and the trace flags. -/
def Host.eraseLog (h : Host) : Host := { h with log := [] }

/-- The simulator state with the log emptied. -/
def SimState.eraseLog (s : SimState) : SimState := { s with host := s.host.eraseLog }

/-! ## Predicates used in the statements -/

/-- The Patched-Address Set invariant relative to the original memory `orig`: a byte
whose address is in the set holds twice its original value (as a byte), every other
byte holds its original value. -/
def PatchedOnce (orig : Nat → Nat) (h : Host) : Prop :=
  ∀ a, (a ∈ h.scriptArgAddressPatched → readByte h.mem a = (2 * readByte orig a) % 256)
    ∧ (a ∉ h.scriptArgAddressPatched → readByte h.mem a = readByte orig a)

/-- The next loop iteration is the 0xFE restart: the opcode under the cursor is 0xFE,
`framesToWait` is 0 and the following byte is 192. -/
def RestartPending (scriptPtr : Nat) (s : SimState) : Prop :=
  readByte s.host.mem (ptrAdd scriptPtr s.currentPosition) = 0xFE
    ∧ s.framesToWait = 0
    ∧ readByte s.host.mem (ptrAdd scriptPtr ((s.currentPosition + 1) % 65536)) = 192

/-! ## Basic facts about memory and the patched-address set -/

theorem readByte_lt (mem : Nat → Nat) (a : Nat) : readByte mem a < 256 :=
  Nat.mod_lt _ (by decide)

theorem readByte_writeByte_same (mem : Nat → Nat) (a v : Nat) :
    readByte (writeByte mem a v) a = v % 256 := by
  simp [readByte, writeByte]

theorem readByte_writeByte_other (mem : Nat → Nat) (a v x : Nat) (hx : x ≠ a) :
    readByte (writeByte mem a v) x = readByte mem x := by
  simp [readByte, writeByte, hx]

theorem mem_setInsert (x a : Nat) (s : List Nat) : x ∈ setInsert a s ↔ x = a ∨ x ∈ s := by
  unfold setInsert
  split
  · constructor
    · intro hx; exact Or.inr hx
    · rintro (rfl | hx)
      · assumption
      · exact hx
  · simp

theorem setInsert_of_mem (a : Nat) (s : List Nat) (ha : a ∈ s) : setInsert a s = s := by
  simp [setInsert, ha]

/-! ## Facts about `patchCameraScriptArg` -/

theorem patch_of_mem (h : Host) (sp pos : Nat)
    (hin : ptrAdd sp pos ∈ h.scriptArgAddressPatched) :
    patchCameraScriptArg h sp pos = h := by
  cases h
  simp_all [patchCameraScriptArg, setInsert]

theorem patch_set (h : Host) (sp pos : Nat) :
    (patchCameraScriptArg h sp pos).scriptArgAddressPatched
      = setInsert (ptrAdd sp pos) h.scriptArgAddressPatched := by
  unfold patchCameraScriptArg
  by_cases hin : ptrAdd sp pos ∈ h.scriptArgAddressPatched
  · simp [hin]
  · simp only [hin, if_false]
    split <;> rfl

theorem patch_mem_of_not_mem (h : Host) (sp pos : Nat)
    (hin : ptrAdd sp pos ∉ h.scriptArgAddressPatched) :
    (patchCameraScriptArg h sp pos).mem
      = writeByte h.mem (ptrAdd sp pos) (readByte h.mem (ptrAdd sp pos) * 2) := by
  unfold patchCameraScriptArg
  simp only [hin, if_false]
  split <;> rfl

theorem patch_flags (h : Host) (sp pos : Nat) :
    (patchCameraScriptArg h sp pos).trace_all = h.trace_all
      ∧ (patchCameraScriptArg h sp pos).trace_battle_camera = h.trace_battle_camera := by
  unfold patchCameraScriptArg
  by_cases hin : ptrAdd sp pos ∈ h.scriptArgAddressPatched
  · simp [hin]
  · simp only [hin, if_false]
    split <;> exact ⟨rfl, rfl⟩

theorem patch_log_of_not_mem (h : Host) (sp pos : Nat)
    (hin : ptrAdd sp pos ∉ h.scriptArgAddressPatched) :
    (patchCameraScriptArg h sp pos).log
      = if 128 ≤ readByte h.mem (ptrAdd sp pos) then
          h.log ++ [.errorOutOfBound (ptrAdd sp pos) (readByte h.mem (ptrAdd sp pos))
            (readByte h.mem (ptrAdd sp pos) * 2 % 256)]
        else h.log := by
  have hb := readByte_lt h.mem (ptrAdd sp pos)
  unfold patchCameraScriptArg
  simp only [hin, if_false, readByte_writeByte_same]
  by_cases hlt : 128 ≤ readByte h.mem (ptrAdd sp pos)
  · have : readByte h.mem (ptrAdd sp pos) * 2 ≠ readByte h.mem (ptrAdd sp pos) * 2 % 256 := by
      omega
    simp [this, hlt, Host.emit]
  · have : readByte h.mem (ptrAdd sp pos) * 2 = readByte h.mem (ptrAdd sp pos) * 2 % 256 := by
      omega
    rw [if_neg (by simpa using this), if_neg hlt]

theorem patch_mem_other (h : Host) (sp pos x : Nat) (hx : x ≠ ptrAdd sp pos) :
    readByte (patchCameraScriptArg h sp pos).mem x = readByte h.mem x := by
  by_cases hin : ptrAdd sp pos ∈ h.scriptArgAddressPatched
  · rw [patch_of_mem h sp pos hin]
  · rw [patch_mem_of_not_mem h sp pos hin, readByte_writeByte_other _ _ _ _ hx]

theorem patch_mem_in_set (h : Host) (sp pos : Nat) :
    ptrAdd sp pos ∈ (patchCameraScriptArg h sp pos).scriptArgAddressPatched := by
  rw [patch_set, mem_setInsert]
  exact Or.inl rfl

/-! ## Claims about `patchCameraScriptArg` -/

/-- C2: calling `patchCameraScriptArg` a second time on the same absolute address
(through the same or another pointer/position pair) gives exactly the state the first
call gave: no byte changes, the set gains nothing and nothing is logged; a call on an
address already in the set changes nothing at all; and for an original byte `b < 128` at
a not yet patched address the byte after one call and after two calls is `2 * b`. -/
theorem patchCameraScriptArg_idempotent (h : Host)
    (scriptPointer position scriptPointer2 position2 : Nat)
    (hsame : ptrAdd scriptPointer2 position2 = ptrAdd scriptPointer position) :
    patchCameraScriptArg (patchCameraScriptArg h scriptPointer position) scriptPointer2 position2
        = patchCameraScriptArg h scriptPointer position
      ∧ (ptrAdd scriptPointer position ∈ h.scriptArgAddressPatched →
          patchCameraScriptArg h scriptPointer position = h)
      ∧ (ptrAdd scriptPointer position ∉ h.scriptArgAddressPatched →
          readByte h.mem (ptrAdd scriptPointer position) < 128 →
          readByte (patchCameraScriptArg h scriptPointer position).mem
              (ptrAdd scriptPointer position)
            = 2 * readByte h.mem (ptrAdd scriptPointer position)
          ∧ readByte (patchCameraScriptArg
              (patchCameraScriptArg h scriptPointer position) scriptPointer2 position2).mem
              (ptrAdd scriptPointer position)
            = 2 * readByte h.mem (ptrAdd scriptPointer position)) := by
  have hidem := patch_of_mem (patchCameraScriptArg h scriptPointer position) scriptPointer2
    position2 (by rw [hsame]; exact patch_mem_in_set h scriptPointer position)
  refine ⟨hidem, patch_of_mem h scriptPointer position, ?_⟩
  intro hin hb
  rw [hidem, patch_mem_of_not_mem h _ _ hin, readByte_writeByte_same]
  constructor <;> omega

/-- The byte 10 at address 1001 of a fresh process, patched as `1000 + 1` and then as
`1001 + 0`: 20 after one call and after two. -/
theorem patchCameraScriptArg_idempotent_witness :
    readByte (patchCameraScriptArg (freshHost (memOfList 1000 [0, 10]) false) 1000 1).mem
        (ptrAdd 1000 1) = 2 * 10
      ∧ readByte (patchCameraScriptArg
          (patchCameraScriptArg (freshHost (memOfList 1000 [0, 10]) false) 1000 1) 1001 0).mem
          (ptrAdd 1000 1) = 2 * 10 :=
  (patchCameraScriptArg_idempotent (freshHost (memOfList 1000 [0, 10]) false) 1000 1 1001 0
    (by decide)).2.2 (by decide) (by decide)

/-- C3: for a byte `b` stored at an address not yet in the Patched-Address Set, one call
stores `(2 * b) % 256` there, appends the "multiplication out of bound" diagnostic to the
log exactly when `128 ≤ b` (that is, exactly when `2 * b` does not fit in a byte) and
appends nothing otherwise, always returns a state, and afterwards the address is in the
set together with every previous member. -/
theorem patchCameraScriptArg_overflow_report (h : Host) (scriptPointer position : Nat)
    (hin : ptrAdd scriptPointer position ∉ h.scriptArgAddressPatched) :
    readByte (patchCameraScriptArg h scriptPointer position).mem (ptrAdd scriptPointer position)
        = (2 * readByte h.mem (ptrAdd scriptPointer position)) % 256
      ∧ (patchCameraScriptArg h scriptPointer position).log
          = h.log ++
            (if 128 ≤ readByte h.mem (ptrAdd scriptPointer position) then
              [LogMsg.errorOutOfBound (ptrAdd scriptPointer position)
                (readByte h.mem (ptrAdd scriptPointer position))
                ((2 * readByte h.mem (ptrAdd scriptPointer position)) % 256)]
             else [])
      ∧ (128 ≤ readByte h.mem (ptrAdd scriptPointer position)
          ↔ 256 ≤ 2 * readByte h.mem (ptrAdd scriptPointer position))
      ∧ ptrAdd scriptPointer position
          ∈ (patchCameraScriptArg h scriptPointer position).scriptArgAddressPatched
      ∧ ∀ x ∈ h.scriptArgAddressPatched,
          x ∈ (patchCameraScriptArg h scriptPointer position).scriptArgAddressPatched := by
  refine ⟨?_, ?_, by omega, patch_mem_in_set h _ _, ?_⟩
  · rw [patch_mem_of_not_mem h _ _ hin, readByte_writeByte_same, Nat.mul_comm]
  · rw [patch_log_of_not_mem h _ _ hin, Nat.mul_comm]
    split <;> simp
  · intro x hx
    rw [patch_set, mem_setInsert]
    exact Or.inr hx

/-- The byte `200` at address `1000` of a fresh process is doubled to `144` with a
diagnostic. -/
theorem patchCameraScriptArg_overflow_report_witness :
    readByte (patchCameraScriptArg (freshHost (memOfList 1000 [200]) false) 1000 0).mem
        (ptrAdd 1000 0) = 144
      ∧ (patchCameraScriptArg (freshHost (memOfList 1000 [200]) false) 1000 0).log
          = [LogMsg.errorOutOfBound 1000 200 144] := by
  have h := patchCameraScriptArg_overflow_report (freshHost (memOfList 1000 [200]) false)
    1000 0 (by simp [freshHost])
  refine ⟨h.1.trans (by decide), h.2.1.trans (by decide)⟩

/-! ## The Patched-Address Set invariant -/

theorem PatchedOnce_congr (orig : Nat → Nat) (h k : Host) (hm : k.mem = h.mem)
    (hs : k.scriptArgAddressPatched = h.scriptArgAddressPatched) (hinv : PatchedOnce orig h) :
    PatchedOnce orig k := by
  intro a
  rw [hm, hs]
  exact hinv a

theorem PatchedOnce_emit (orig : Nat → Nat) (h : Host) (m : LogMsg)
    (hinv : PatchedOnce orig h) : PatchedOnce orig (h.emit m) :=
  PatchedOnce_congr orig h _ rfl rfl hinv

theorem PatchedOnce_emitIfTracing (orig : Nat → Nat) (h : Host) (m : LogMsg)
    (hinv : PatchedOnce orig h) : PatchedOnce orig (h.emitIfTracing m) := by
  unfold Host.emitIfTracing
  split
  · exact PatchedOnce_emit orig h m hinv
  · exact hinv

theorem PatchedOnce_patch (orig : Nat → Nat) (h : Host) (sp pos : Nat)
    (hinv : PatchedOnce orig h) : PatchedOnce orig (patchCameraScriptArg h sp pos) := by
  by_cases hin : ptrAdd sp pos ∈ h.scriptArgAddressPatched
  · rw [patch_of_mem h sp pos hin]
    exact hinv
  · intro a
    rw [patch_set, mem_setInsert]
    by_cases ha : a = ptrAdd sp pos
    · subst ha
      refine ⟨fun _ => ?_, fun hn => absurd (Or.inl rfl) hn⟩
      rw [patch_mem_of_not_mem h sp pos hin, readByte_writeByte_same, ← (hinv _).2 hin,
        Nat.mul_comm]
    · rw [patch_mem_other h sp pos a ha]
      refine ⟨fun hm => ?_, fun hn => ?_⟩
      · rcases hm with hm | hm
        · exact absurd hm ha
        · exact (hinv a).1 hm
      · exact (hinv a).2 (fun hm => hn (Or.inr hm))

theorem PatchedOnce_loopBody (orig : Nat → Nat) (sp : Nat) (t : OpcodeTables) (s : SimState)
    (hinv : PatchedOnce orig s.host) : PatchedOnce orig (loopBody sp t s).host := by
  have h0 := PatchedOnce_emitIfTracing orig s.host
    (.traceOpcode (readByte s.host.mem (ptrAdd sp s.currentPosition))) hinv
  unfold loopBody
  dsimp only
  repeat' split
  all_goals
    first
    | exact h0
    | exact PatchedOnce_patch orig _ _ _ h0
    | exact PatchedOnce_emitIfTracing orig _ _ h0

theorem whileActive_preserves (P : SimState → Prop) (body : SimState → SimState)
    (hbody : ∀ s, P s → P (body s)) :
    ∀ (fuel : Nat) (s r : SimState), P s → whileActive body fuel s = some r → P r := by
  intro fuel
  induction fuel with
  | zero =>
    intro s r hs hr
    unfold whileActive at hr
    split at hr
    · cases hr
    · cases hr; exact hs
  | succ n ih =>
    intro s r hs hr
    unfold whileActive at hr
    split at hr
    · exact ih _ _ (hbody s hs) hr
    · cases hr; exact hs

theorem PatchedOnce_simulate (orig : Nat → Nat) (fuel : Nat) (h : Host)
    (sp p w : Nat) (t : OpcodeTables) (r : (Nat × Nat) × Host) (hinv : PatchedOnce orig h)
    (hr : simulateCameraScript fuel h sp p w t = some r) : PatchedOnce orig r.2 := by
  unfold simulateCameraScript at hr
  dsimp only at hr
  split at hr
  · cases hr
  · rename_i s hs
    cases hr
    have := whileActive_preserves (fun s => PatchedOnce orig s.host) (loopBody sp t)
      (fun s hs => PatchedOnce_loopBody orig sp t s hs) fuel _ s
      (PatchedOnce_emitIfTracing orig h _ hinv) hs
    exact PatchedOnce_emitIfTracing orig _ _ this

/-- C4: with `orig` the memory at the time the Patched-Address Set was empty, the
predicate "every address in the set holds `(2 * orig) % 256`, every other address holds
its original byte" holds initially, is preserved by every call of
`patchCameraScriptArg`, by every iteration of the simulator loop with any opcode tables
(so with either dialect table), by any number of iterations, and by every completed call
of `simulateCameraScript`; hence no byte is doubled twice. -/
theorem patched_address_set_invariant :
    (∀ h : Host, h.scriptArgAddressPatched = [] → PatchedOnce h.mem h)
      ∧ (∀ (orig : Nat → Nat) (h : Host) (scriptPointer position : Nat),
          PatchedOnce orig h → PatchedOnce orig (patchCameraScriptArg h scriptPointer position))
      ∧ (∀ (orig : Nat → Nat) (scriptPtr : Nat) (t : OpcodeTables) (s : SimState),
          PatchedOnce orig s.host → PatchedOnce orig (loopBody scriptPtr t s).host)
      ∧ (∀ (orig : Nat → Nat) (scriptPtr : Nat) (t : OpcodeTables) (k : Nat) (s : SimState),
          PatchedOnce orig s.host → PatchedOnce orig ((loopBody scriptPtr t)^[k] s).host)
      ∧ (∀ (orig : Nat → Nat) (fuel : Nat) (h : Host) (scriptPtr p w : Nat) (t : OpcodeTables)
          (r : (Nat × Nat) × Host), PatchedOnce orig h →
          simulateCameraScript fuel h scriptPtr p w t = some r → PatchedOnce orig r.2) := by
  refine ⟨?_, PatchedOnce_patch, PatchedOnce_loopBody, ?_, PatchedOnce_simulate⟩
  · intro h hs a
    rw [hs]
    exact ⟨fun hm => absurd hm (List.not_mem_nil a), fun _ => rfl⟩
  · intro orig sp t k
    induction k with
    | zero => intro s hs; exact hs
    | succ n ih =>
      intro s hs
      rw [Function.iterate_succ_apply]
      exact ih _ (PatchedOnce_loopBody orig sp t s hs)

/-- Simulating the script `[0xF5, 10, 0xF4]` twice in a fresh process keeps the
invariant, and the argument byte holds 20 (doubled once), not 40. -/
theorem patched_address_set_invariant_witness :
    ∃ r1 r2, simulateCameraScript 5 (freshHost (memOfList 1000 [0xF5, 10, 0xF4]) false)
          1000 0 0 tables_5C3FD5 = some r1
      ∧ simulateCameraScript 5 r1.2 1000 0 0 tables_5C3FD5 = some r2
      ∧ PatchedOnce (memOfList 1000 [0xF5, 10, 0xF4]) r2.2
      ∧ readByte r2.2.mem 1001 = 20 := by
  refine ⟨_, _, rfl, rfl, ?_, by decide⟩
  have h0 := patched_address_set_invariant.1
    (freshHost (memOfList 1000 [0xF5, 10, 0xF4]) false) rfl
  have h1 := patched_address_set_invariant.2.2.2.2 _ 5 _ 1000 0 0 tables_5C3FD5 _ h0 rfl
  exact patched_address_set_invariant.2.2.2.2 _ 5 _ 1000 0 0 tables_5C3FD5 _ h1 rfl

/-! ## The loop body, case by case -/

@[simp] theorem emit_mem (h : Host) (m : LogMsg) : (h.emit m).mem = h.mem := rfl

@[simp] theorem emit_set (h : Host) (m : LogMsg) :
    (h.emit m).scriptArgAddressPatched = h.scriptArgAddressPatched := rfl

theorem emit_log (h : Host) (m : LogMsg) : (h.emit m).log = h.log ++ [m] := rfl

@[simp] theorem emit_tracing (h : Host) (m : LogMsg) : (h.emit m).tracing = h.tracing := rfl

@[simp] theorem emitIfTracing_mem (h : Host) (m : LogMsg) : (h.emitIfTracing m).mem = h.mem := by
  unfold Host.emitIfTracing
  split <;> rfl

@[simp] theorem emitIfTracing_set (h : Host) (m : LogMsg) :
    (h.emitIfTracing m).scriptArgAddressPatched = h.scriptArgAddressPatched := by
  unfold Host.emitIfTracing
  split <;> rfl

@[simp] theorem emitIfTracing_tracing (h : Host) (m : LogMsg) :
    (h.emitIfTracing m).tracing = h.tracing := by
  unfold Host.emitIfTracing
  split <;> rfl

theorem emitIfTracing_log (h : Host) (m : LogMsg) :
    (h.emitIfTracing m).log = h.log ++ (if h.tracing then [m] else []) := by
  unfold Host.emitIfTracing
  split <;> simp [Host.emit]

@[simp] theorem emitIfTracing_trace_all (h : Host) (m : LogMsg) :
    (h.emitIfTracing m).trace_all = h.trace_all := by
  unfold Host.emitIfTracing
  split <;> rfl

@[simp] theorem emitIfTracing_trace_battle_camera (h : Host) (m : LogMsg) :
    (h.emitIfTracing m).trace_battle_camera = h.trace_battle_camera := by
  unfold Host.emitIfTracing
  split <;> rfl

/-- The loop body only reads the trace flags. -/
theorem loopBody_flags (sp : Nat) (t : OpcodeTables) (s : SimState) :
    (loopBody sp t s).host.trace_all = s.host.trace_all
      ∧ (loopBody sp t s).host.trace_battle_camera = s.host.trace_battle_camera := by
  unfold loopBody
  dsimp only
  repeat' split
  all_goals simp [patch_flags, Host.emit]

theorem loopBody_F4_wait (sp : Nat) (t : OpcodeTables) (s : SimState)
    (hop : readByte s.host.mem (ptrAdd sp s.currentPosition) = 0xF4)
    (hw : s.framesToWait ≠ 0) :
    loopBody sp t s =
      { host := s.host.emitIfTracing (.traceOpcode 0xF4)
        currentPosition := ((s.currentPosition + 1) % 65536 + 65535) % 65536
        framesToWait := (s.framesToWait + 65535) % 65536
        isScriptActive := false } := by
  unfold loopBody
  dsimp only
  rw [if_pos hop, if_pos hw, hop]

theorem loopBody_F4_zero (sp : Nat) (t : OpcodeTables) (s : SimState)
    (hop : readByte s.host.mem (ptrAdd sp s.currentPosition) = 0xF4)
    (hw : s.framesToWait = 0) :
    loopBody sp t s =
      { s with
        host := s.host.emitIfTracing (.traceOpcode 0xF4)
        currentPosition := (s.currentPosition + 1) % 65536 } := by
  unfold loopBody
  dsimp only
  rw [if_pos hop, if_neg (by simpa using hw), hop]

theorem loopBody_F5 (sp : Nat) (t : OpcodeTables) (s : SimState)
    (hop : readByte s.host.mem (ptrAdd sp s.currentPosition) = 0xF5) :
    loopBody sp t s =
      { s with
        host := patchCameraScriptArg (s.host.emitIfTracing (.traceOpcode 0xF5)) sp
          ((s.currentPosition + 1) % 65536 % 256)
        framesToWait := readByte
          (patchCameraScriptArg (s.host.emitIfTracing (.traceOpcode 0xF5)) sp
            ((s.currentPosition + 1) % 65536 % 256)).mem
          (ptrAdd sp ((s.currentPosition + 1) % 65536))
        currentPosition := ((s.currentPosition + 1) % 65536 + 1) % 65536 } := by
  unfold loopBody
  dsimp only
  rw [if_neg (by rw [hop]; decide), if_pos hop, hop]

theorem loopBody_FE_restart (sp : Nat) (t : OpcodeTables) (s : SimState)
    (hop : readByte s.host.mem (ptrAdd sp s.currentPosition) = 0xFE)
    (hw : s.framesToWait = 0)
    (hnext : readByte s.host.mem (ptrAdd sp ((s.currentPosition + 1) % 65536)) = 192) :
    loopBody sp t s =
      { s with
        host := (s.host.emitIfTracing (.traceOpcode 0xFE)).emitIfTracing (.traceFE 192)
        framesToWait := 0
        currentPosition := 0 } := by
  unfold loopBody
  dsimp only
  rw [if_neg (by rw [hop]; decide), if_neg (by rw [hop]; decide), if_pos hop, if_pos hw,
    emitIfTracing_mem, if_pos hnext, hop, hnext]

theorem loopBody_FE_continue (sp : Nat) (t : OpcodeTables) (s : SimState)
    (hop : readByte s.host.mem (ptrAdd sp s.currentPosition) = 0xFE)
    (hno : s.framesToWait ≠ 0
      ∨ readByte s.host.mem (ptrAdd sp ((s.currentPosition + 1) % 65536)) ≠ 192) :
    (loopBody sp t s).currentPosition = (s.currentPosition + 1) % 65536
      ∧ (loopBody sp t s).framesToWait = s.framesToWait
      ∧ (loopBody sp t s).isScriptActive = s.isScriptActive
      ∧ (loopBody sp t s).host.mem = s.host.mem
      ∧ (loopBody sp t s).host.scriptArgAddressPatched = s.host.scriptArgAddressPatched := by
  unfold loopBody
  dsimp only
  rw [if_neg (by rw [hop]; decide), if_neg (by rw [hop]; decide), if_pos hop]
  by_cases hw : s.framesToWait = 0
  · have hnext := hno.resolve_left (fun h => h hw)
    rw [if_pos hw, emitIfTracing_mem, if_neg hnext]
    simp
  · rw [if_neg hw]
    simp

theorem loopBody_recognised (sp : Nat) (t : OpcodeTables) (s : SimState) (numArgs : Int)
    (h4 : readByte s.host.mem (ptrAdd sp s.currentPosition) ≠ 0xF4)
    (h5 : readByte s.host.mem (ptrAdd sp s.currentPosition) ≠ 0xF5)
    (hE : readByte s.host.mem (ptrAdd sp s.currentPosition) ≠ 0xFE)
    (hfind : mapFind (readByte s.host.mem (ptrAdd sp s.currentPosition)) t.numArgsOpCode
      = some numArgs) :
    loopBody sp t s =
      { host :=
          match mapFind (readByte s.host.mem (ptrAdd sp s.currentPosition))
            t.argIdxDoubleOpCode with
          | some argIdx =>
            patchCameraScriptArg
              (s.host.emitIfTracing
                (.traceOpcode (readByte s.host.mem (ptrAdd sp s.currentPosition))))
              sp (toByte ((((s.currentPosition + 1) % 65536 : Nat) : Int) + argIdx))
          | none =>
            s.host.emitIfTracing
              (.traceOpcode (readByte s.host.mem (ptrAdd sp s.currentPosition)))
        currentPosition := toUInt16 ((((s.currentPosition + 1) % 65536 : Nat) : Int) + numArgs)
        framesToWait := s.framesToWait
        isScriptActive :=
          if readByte s.host.mem (ptrAdd sp s.currentPosition) ∈ t.deactiveOpCodes then false
          else s.isScriptActive } := by
  unfold loopBody
  dsimp only
  rw [if_neg h4, if_neg h5, if_neg hE, hfind]

theorem loopBody_unrecognised (sp : Nat) (t : OpcodeTables) (s : SimState)
    (h4 : readByte s.host.mem (ptrAdd sp s.currentPosition) ≠ 0xF4)
    (h5 : readByte s.host.mem (ptrAdd sp s.currentPosition) ≠ 0xF5)
    (hE : readByte s.host.mem (ptrAdd sp s.currentPosition) ≠ 0xFE)
    (hfind : mapFind (readByte s.host.mem (ptrAdd sp s.currentPosition)) t.numArgsOpCode
      = none) :
    loopBody sp t s =
      { host :=
          if s.host.tracing then
            (s.host.emitIfTracing
              (.traceOpcode (readByte s.host.mem (ptrAdd sp s.currentPosition)))).emit
              (.errorStrangeOpCode (readByte s.host.mem (ptrAdd sp s.currentPosition)))
          else
            s.host.emitIfTracing
              (.traceOpcode (readByte s.host.mem (ptrAdd sp s.currentPosition)))
        currentPosition := (s.currentPosition + 1) % 65536
        framesToWait := s.framesToWait
        isScriptActive := false } := by
  unfold loopBody
  dsimp only
  rw [if_neg h4, if_neg h5, if_neg hE, hfind, emitIfTracing_tracing]

/-! ## Running the loop -/

theorem whileActive_of_inactive (body : SimState → SimState) (fuel : Nat) (s : SimState)
    (hs : s.isScriptActive = false) : whileActive body fuel s = some s := by
  cases fuel <;> simp [whileActive, hs]

theorem whileActive_succ_of_active (body : SimState → SimState) (fuel : Nat) (s : SimState)
    (hs : s.isScriptActive = true) :
    whileActive body (fuel + 1) s = whileActive body fuel (body s) := by
  simp [whileActive, hs]

theorem whileActive_zero_of_active (body : SimState → SimState) (s : SimState)
    (hs : s.isScriptActive = true) : whileActive body 0 s = none := by
  simp [whileActive, hs]

theorem simulate_zero (h : Host) (sp p w : Nat) (t : OpcodeTables) :
    simulateCameraScript 0 h sp p w t = none := by
  simp [simulateCameraScript, whileActive]

/-- A call whose first loop iteration deactivates the script returns after that
iteration. -/
theorem simulate_one_step (fuel : Nat) (h : Host) (sp p w : Nat) (t : OpcodeTables)
    (hstop : (loopBody sp t
      { host := h.emitIfTracing .traceStart, currentPosition := p, framesToWait := w,
        isScriptActive := true }).isScriptActive = false) :
    simulateCameraScript (fuel + 1) h sp p w t =
      some (((loopBody sp t
          { host := h.emitIfTracing .traceStart, currentPosition := p, framesToWait := w,
            isScriptActive := true }).currentPosition,
        (loopBody sp t
          { host := h.emitIfTracing .traceStart, currentPosition := p, framesToWait := w,
            isScriptActive := true }).framesToWait),
        (loopBody sp t
          { host := h.emitIfTracing .traceStart, currentPosition := p, framesToWait := w,
            isScriptActive := true }).host.emitIfTracing .traceEnd) := by
  unfold simulateCameraScript
  dsimp only
  rw [whileActive_succ_of_active _ _ _ rfl, whileActive_of_inactive _ _ _ hstop]

/-! ## Unrecognised opcodes -/

/-- C8: when the byte at position `p` is none of 0xF4, 0xF5, 0xFE and is not a key of
`numArgsOpCode`, `simulateCameraScript` performs exactly one loop iteration (no
iterations do not suffice, one does) and returns `(p + 1, w)`, the position being the
16-bit successor `(p + 1) % 65536`, which is `p + 1` for `p < 65535`; memory and the
Patched-Address Set are unchanged. -/
theorem unrecognised_opcode_terminates (h : Host) (scriptPtr p w : Nat) (t : OpcodeTables)
    (h4 : readByte h.mem (ptrAdd scriptPtr p) ≠ 0xF4)
    (h5 : readByte h.mem (ptrAdd scriptPtr p) ≠ 0xF5)
    (hE : readByte h.mem (ptrAdd scriptPtr p) ≠ 0xFE)
    (hkey : mapFind (readByte h.mem (ptrAdd scriptPtr p)) t.numArgsOpCode = none) :
    simulateCameraScript 0 h scriptPtr p w t = none
      ∧ ∀ fuel, ∃ hAfter,
          simulateCameraScript (fuel + 1) h scriptPtr p w t
            = some (((p + 1) % 65536, w), hAfter)
          ∧ (p < 65535 →
              simulateCameraScript (fuel + 1) h scriptPtr p w t = some ((p + 1, w), hAfter))
          ∧ hAfter.mem = h.mem
          ∧ hAfter.scriptArgAddressPatched = h.scriptArgAddressPatched := by
  refine ⟨simulate_zero h scriptPtr p w t, fun fuel => ?_⟩
  have hbody := loopBody_unrecognised scriptPtr t
    { host := h.emitIfTracing .traceStart, currentPosition := p, framesToWait := w,
      isScriptActive := true }
    (by simpa using h4) (by simpa using h5) (by simpa using hE) (by simpa using hkey)
  simp only [emitIfTracing_mem, emitIfTracing_tracing] at hbody
  have hrun := simulate_one_step fuel h scriptPtr p w t (by rw [hbody])
  rw [hbody] at hrun
  refine ⟨_, hrun, ?_, ?_, ?_⟩
  · intro hp
    rw [hrun, Nat.mod_eq_of_lt (by omega)]
  · dsimp only
    split <;> simp
  · dsimp only
    split <;> simp

/-- The byte 0xAB at position 0 with an empty table: one iteration, result `(1, 0)`. -/
theorem unrecognised_opcode_terminates_witness :
    simulateCameraScript 0 (freshHost (memOfList 1000 [0xAB]) false) 1000 0 0 emptyTables = none
      ∧ ∀ fuel, ∃ hAfter,
          simulateCameraScript (fuel + 1) (freshHost (memOfList 1000 [0xAB]) false) 1000 0 0
              emptyTables = some (((0 + 1) % 65536, 0), hAfter)
          ∧ (0 < 65535 →
              simulateCameraScript (fuel + 1) (freshHost (memOfList 1000 [0xAB]) false) 1000 0 0
                emptyTables = some ((0 + 1, 0), hAfter))
          ∧ hAfter.mem = (freshHost (memOfList 1000 [0xAB]) false).mem
          ∧ hAfter.scriptArgAddressPatched
              = (freshHost (memOfList 1000 [0xAB]) false).scriptArgAddressPatched :=
  unrecognised_opcode_terminates (freshHost (memOfList 1000 [0xAB]) false) 1000 0 0 emptyTables
    (by decide) (by decide) (by decide) (by decide)

/-- With both trace flags off, the unknown opcode 0xAB at position 0 (empty table) ends
the simulation at position 1 and nothing at all is logged: no Strange OpCode
diagnostic is emitted. -/
theorem strange_opcode_silent_when_not_tracing :
    (simulateCameraScript 1 (freshHost (memOfList 1000 [0xAB]) false) 1000 0 0
        emptyTables).map (fun r => (r.1, r.2.log)) = some ((1, 0), [])
      ∧ (freshHost (memOfList 1000 [0xAB]) false).trace_all = false
      ∧ (freshHost (memOfList 1000 [0xAB]) false).trace_battle_camera = false := by
  decide

/-- C9 (amended): whenever the loop reads an opcode that is not recognised, that
iteration ends the simulation and appends to the log the opcode trace followed by the
Strange OpCode diagnostic naming that opcode if `trace_all` or `trace_battle_camera` is
set, and appends nothing if both are clear; so the diagnostic is emitted if and only if
tracing is on. A call that starts on such an opcode returns after one iteration having
logged the start trace, the opcode trace, the diagnostic and the end trace when tracing
is on and nothing otherwise. The loop body never changes the two flags. -/
theorem strange_opcode_diagnosed_iff_tracing (scriptPtr : Nat) (t : OpcodeTables)
    (s : SimState)
    (h4 : readByte s.host.mem (ptrAdd scriptPtr s.currentPosition) ≠ 0xF4)
    (h5 : readByte s.host.mem (ptrAdd scriptPtr s.currentPosition) ≠ 0xF5)
    (hE : readByte s.host.mem (ptrAdd scriptPtr s.currentPosition) ≠ 0xFE)
    (hkey : mapFind (readByte s.host.mem (ptrAdd scriptPtr s.currentPosition))
      t.numArgsOpCode = none) :
    (loopBody scriptPtr t s).isScriptActive = false
      ∧ (loopBody scriptPtr t s).host.log
          = s.host.log ++
            (if s.host.trace_all || s.host.trace_battle_camera then
              [LogMsg.traceOpcode (readByte s.host.mem (ptrAdd scriptPtr s.currentPosition)),
               LogMsg.errorStrangeOpCode
                 (readByte s.host.mem (ptrAdd scriptPtr s.currentPosition))]
             else [])
      ∧ (LogMsg.errorStrangeOpCode (readByte s.host.mem (ptrAdd scriptPtr s.currentPosition))
            ∈ (if s.host.trace_all || s.host.trace_battle_camera then
                [LogMsg.traceOpcode (readByte s.host.mem (ptrAdd scriptPtr s.currentPosition)),
                 LogMsg.errorStrangeOpCode
                   (readByte s.host.mem (ptrAdd scriptPtr s.currentPosition))]
               else [])
          ↔ (s.host.trace_all || s.host.trace_battle_camera) = true)
      ∧ (∀ fuel w, ∃ r,
          simulateCameraScript (fuel + 1) s.host scriptPtr s.currentPosition w t = some r
          ∧ r.2.log
            = s.host.log ++
              (if s.host.trace_all || s.host.trace_battle_camera then
                [LogMsg.traceStart,
                 LogMsg.traceOpcode (readByte s.host.mem (ptrAdd scriptPtr s.currentPosition)),
                 LogMsg.errorStrangeOpCode
                   (readByte s.host.mem (ptrAdd scriptPtr s.currentPosition)),
                 LogMsg.traceEnd]
               else []))
      ∧ (∀ s1 : SimState,
          (loopBody scriptPtr t s1).host.trace_all = s1.host.trace_all
          ∧ (loopBody scriptPtr t s1).host.trace_battle_camera
              = s1.host.trace_battle_camera) := by
  refine ⟨?_, ?_, ?_, ?_, loopBody_flags scriptPtr t⟩
  · rw [loopBody_unrecognised scriptPtr t s h4 h5 hE hkey]
  · rw [loopBody_unrecognised scriptPtr t s h4 h5 hE hkey]
    dsimp only
    by_cases htr : s.host.tracing = true
    · have htr2 : (s.host.trace_all || s.host.trace_battle_camera) = true := htr
      rw [if_pos htr, if_pos htr2]
      simp [emitIfTracing_log, emit_log, htr]
    · have htr2 : ¬ (s.host.trace_all || s.host.trace_battle_camera) = true := htr
      rw [if_neg htr, if_neg htr2]
      simp [emitIfTracing_log, htr]
  · by_cases htr : (s.host.trace_all || s.host.trace_battle_camera) = true
    · simp [htr]
    · simp [htr]
  · intro fuel w
    have hbody := loopBody_unrecognised scriptPtr t
      { host := s.host.emitIfTracing .traceStart, currentPosition := s.currentPosition,
        framesToWait := w, isScriptActive := true }
      (by simpa using h4) (by simpa using h5) (by simpa using hE) (by simpa using hkey)
    simp only [emitIfTracing_mem, emitIfTracing_tracing] at hbody
    have hrun := simulate_one_step fuel s.host scriptPtr s.currentPosition w t (by rw [hbody])
    rw [hbody] at hrun
    refine ⟨_, hrun, ?_⟩
    dsimp only
    by_cases htr : s.host.tracing = true
    · have htr2 : (s.host.trace_all || s.host.trace_battle_camera) = true := htr
      rw [if_pos htr, if_pos htr2]
      simp [emitIfTracing_log, emit_log, htr]
    · have htr2 : ¬ (s.host.trace_all || s.host.trace_battle_camera) = true := htr
      rw [if_neg htr, if_neg htr2]
      simp [emitIfTracing_log, htr]

/-- With `trace_battle_camera` set, the unknown opcode 0xAB at position 0 is diagnosed:
the call logs the start trace, the opcode trace, the diagnostic and the end trace. -/
theorem strange_opcode_diagnosed_iff_tracing_witness :
    ∃ r,
      simulateCameraScript 1 (freshHost (memOfList 1000 [0xAB]) true) 1000 0 0
        emptyTables = some r
      ∧ r.2.log = [LogMsg.traceStart, LogMsg.traceOpcode 0xAB, LogMsg.errorStrangeOpCode 0xAB,
          LogMsg.traceEnd] :=
  (strange_opcode_diagnosed_iff_tracing 1000 emptyTables
    { host := freshHost (memOfList 1000 [0xAB]) true, currentPosition := 0, framesToWait := 0,
      isScriptActive := true }
    (by decide) (by decide) (by decide) (by decide)).2.2.2.1 0 0

/-! ## The wait-decrement opcode -/

/-- C10: with byte 0xF4 at position `p` and `framesToWait = w ≠ 0`, the call performs
exactly one loop iteration and returns `(p, w - 1)`; memory and the Patched-Address Set
are unchanged. -/
theorem wait_decrement_with_frames_remaining (h : Host) (scriptPtr p w : Nat)
    (t : OpcodeTables) (hp : p < 65536) (hw : w < 65536)
    (hop : readByte h.mem (ptrAdd scriptPtr p) = 0xF4) (hw0 : w ≠ 0) :
    simulateCameraScript 0 h scriptPtr p w t = none
      ∧ ∀ fuel, ∃ hAfter,
          simulateCameraScript (fuel + 1) h scriptPtr p w t = some ((p, w - 1), hAfter)
          ∧ hAfter.mem = h.mem
          ∧ hAfter.scriptArgAddressPatched = h.scriptArgAddressPatched := by
  refine ⟨simulate_zero h scriptPtr p w t, fun fuel => ?_⟩
  have hbody := loopBody_F4_wait scriptPtr t
    { host := h.emitIfTracing .traceStart, currentPosition := p, framesToWait := w,
      isScriptActive := true }
    (by simpa using hop) hw0
  have hrun := simulate_one_step fuel h scriptPtr p w t (by rw [hbody])
  rw [hbody] at hrun
  dsimp only at hrun
  have e1 : ((p + 1) % 65536 + 65535) % 65536 = p := by omega
  have e2 : (w + 65535) % 65536 = w - 1 := by omega
  rw [e1, e2] at hrun
  exact ⟨_, hrun, by simp, by simp⟩

/-- Three frames left at a 0xF4 at position 2: the call returns `(2, 2)`. -/
theorem wait_decrement_with_frames_remaining_witness :
    simulateCameraScript 0 (freshHost (memOfList 1000 [0xF5, 3, 0xF4]) false) 1000 2 3
        tables_5C23D1 = none
      ∧ ∀ fuel, ∃ hAfter,
          simulateCameraScript (fuel + 1) (freshHost (memOfList 1000 [0xF5, 3, 0xF4]) false)
            1000 2 3 tables_5C23D1 = some ((2, 3 - 1), hAfter)
          ∧ hAfter.mem = (freshHost (memOfList 1000 [0xF5, 3, 0xF4]) false).mem
          ∧ hAfter.scriptArgAddressPatched
              = (freshHost (memOfList 1000 [0xF5, 3, 0xF4]) false).scriptArgAddressPatched :=
  wait_decrement_with_frames_remaining (freshHost (memOfList 1000 [0xF5, 3, 0xF4]) false)
    1000 2 3 tables_5C23D1 (by decide) (by decide) (by decide) (by decide)

/-! ## Argument skipping and the end-of-script opcode -/

theorem ptrAdd_ne (sp i j : Nat) (hi : i < 4294967296) (hj : j < 4294967296) (hij : i ≠ j) :
    ptrAdd sp i ≠ ptrAdd sp j := by
  unfold ptrAdd
  omega

/-- A call whose first iteration leaves the script active and whose second iteration
deactivates it returns after exactly two iterations. -/
theorem simulate_two_steps (fuel : Nat) (h : Host) (sp p w : Nat) (t : OpcodeTables)
    (s1 s2 : SimState)
    (h1 : loopBody sp t
      { host := h.emitIfTracing .traceStart, currentPosition := p, framesToWait := w,
        isScriptActive := true } = s1)
    (ha : s1.isScriptActive = true)
    (h2 : loopBody sp t s1 = s2)
    (hb : s2.isScriptActive = false) :
    simulateCameraScript 1 h sp p w t = none
      ∧ simulateCameraScript (fuel + 2) h sp p w t
          = some ((s2.currentPosition, s2.framesToWait), s2.host.emitIfTracing .traceEnd) := by
  unfold simulateCameraScript
  dsimp only
  rw [whileActive_succ_of_active _ _ _ rfl, whileActive_succ_of_active _ _ _ rfl, h1,
    whileActive_zero_of_active _ _ ha, whileActive_succ_of_active _ _ _ ha, h2,
    whileActive_of_inactive _ _ _ hb]
  exact ⟨rfl, rfl⟩

/-- With the 5C3FD5 tables (0xD8 takes 9 arguments, 0xFF is terminal) the buffer
`[0xD8, 1, 2, 3, 4, 5, 6, 7, 8, 9, 0xFF]` simulated from position 0 with wait 0 returns
position 10, not 11; the same holds with the 5C23D1 tables. -/
theorem skip_nine_args_returns_ten :
    (simulateCameraScript 2
        (freshHost (memOfList 1000 [0xD8, 1, 2, 3, 4, 5, 6, 7, 8, 9, 0xFF]) false) 1000 0 0
        tables_5C3FD5).map (fun r => r.1) = some (10, 0)
      ∧ (simulateCameraScript 2
          (freshHost (memOfList 1000 [0xD8, 1, 2, 3, 4, 5, 6, 7, 8, 9, 0xFF]) false) 1000 0 0
          tables_5C23D1).map (fun r => r.1) = some (10, 0)
      ∧ mapFind 0xD8 tables_5C3FD5.numArgsOpCode = some 9
      ∧ 0xFF ∈ tables_5C3FD5.deactiveOpCodes
      ∧ mapFind 0xD8 tables_5C23D1.numArgsOpCode = some 9
      ∧ 0xFF ∈ tables_5C23D1.deactiveOpCodes := by
  decide

/-- C5 (amended): with either dialect table (0xD8 takes 9 arguments, 0xFF is terminal
with argument count -1), for any nine argument bytes after 0xD8 followed by 0xFF,
simulating from position 0 with wait 0 terminates after exactly two loop iterations and
returns position 10, the index of the 0xFF byte itself, with wait 0. -/
theorem skip_nine_args_then_terminal (h : Host) (scriptPtr : Nat) (t : OpcodeTables)
    (ht : t = tables_5C3FD5 ∨ t = tables_5C23D1)
    (hop : readByte h.mem (ptrAdd scriptPtr 0) = 0xD8)
    (hend : readByte h.mem (ptrAdd scriptPtr 10) = 0xFF) :
    simulateCameraScript 1 h scriptPtr 0 0 t = none
      ∧ ∀ fuel, ∃ hAfter,
          simulateCameraScript (fuel + 2) h scriptPtr 0 0 t = some ((10, 0), hAfter) := by
  have hnum : mapFind 0xD8 t.numArgsOpCode = some 9 := by
    rcases ht with rfl | rfl <;> decide
  have hidx : mapFind 0xD8 t.argIdxDoubleOpCode = some 8 := by
    rcases ht with rfl | rfl <;> decide
  have hact : (0xD8 : Nat) ∉ t.deactiveOpCodes := by
    rcases ht with rfl | rfl <;> decide
  have hnumF : mapFind 0xFF t.numArgsOpCode = some (-1) := by
    rcases ht with rfl | rfl <;> decide
  have hidxF : mapFind 0xFF t.argIdxDoubleOpCode = none := by
    rcases ht with rfl | rfl <;> decide
  have hdeF : (0xFF : Nat) ∈ t.deactiveOpCodes := by
    rcases ht with rfl | rfl <;> decide
  have h1 := loopBody_recognised scriptPtr t
    { host := h.emitIfTracing .traceStart, currentPosition := 0, framesToWait := 0,
      isScriptActive := true } 9
    (by simp [hop]) (by simp [hop]) (by simp [hop]) (by simp [hop, hnum])
  simp only [emitIfTracing_mem, hop, hidx, if_neg hact] at h1
  have e1 : toUInt16 ((((0 + 1) % 65536 : Nat) : Int) + 9) = 10 := by decide
  have e2 : toByte ((((0 + 1) % 65536 : Nat) : Int) + 8) = 9 := by decide
  rw [e1, e2] at h1
  have hbyte : readByte
      (patchCameraScriptArg
        ((h.emitIfTracing .traceStart).emitIfTracing (.traceOpcode 0xD8)) scriptPtr 9).mem
      (ptrAdd scriptPtr 10) = 0xFF := by
    rw [patch_mem_other _ _ _ _ (ptrAdd_ne scriptPtr 10 9 (by decide) (by decide) (by decide))]
    simpa using hend
  have h2 := loopBody_recognised scriptPtr t
    { host := patchCameraScriptArg
        ((h.emitIfTracing .traceStart).emitIfTracing (.traceOpcode 0xD8)) scriptPtr 9,
      currentPosition := 10, framesToWait := 0, isScriptActive := true } (-1)
    (by rw [hbyte]; decide) (by rw [hbyte]; decide) (by rw [hbyte]; decide)
    (by rw [hbyte]; exact hnumF)
  simp only [hbyte, hidxF, if_pos hdeF] at h2
  have e3 : toUInt16 ((((10 + 1) % 65536 : Nat) : Int) + -1) = 10 := by decide
  rw [e3] at h2
  have := fun fuel => simulate_two_steps fuel h scriptPtr 0 0 t _ _ h1 rfl h2 rfl
  exact ⟨(this 0).1, fun fuel => ⟨_, (this fuel).2⟩⟩

/-- The script `[0xD8, 1, ..., 9, 0xFF]` with the 5C23D1 tables. -/
theorem skip_nine_args_then_terminal_witness :
    simulateCameraScript 1
        (freshHost (memOfList 1000 [0xD8, 1, 2, 3, 4, 5, 6, 7, 8, 9, 0xFF]) false) 1000 0 0
        tables_5C23D1 = none
      ∧ ∀ fuel, ∃ hAfter,
          simulateCameraScript (fuel + 2)
            (freshHost (memOfList 1000 [0xD8, 1, 2, 3, 4, 5, 6, 7, 8, 9, 0xFF]) false) 1000 0 0
            tables_5C23D1 = some ((10, 0), hAfter) :=
  skip_nine_args_then_terminal
    (freshHost (memOfList 1000 [0xD8, 1, 2, 3, 4, 5, 6, 7, 8, 9, 0xFF]) false) 1000
    tables_5C23D1 (Or.inr rfl) (by decide) (by decide)

/-! ## The set-wait opcode -/

/-- The two-byte buffer `[0xF5, 10]` does not end the simulation: after the 0xF5
iteration the script is still active and the byte at offset 2, outside the buffer, is
dispatched. With zero bytes behind the buffer the call returns `(3, 20)`, with 0xF4
behind it `(2, 19)`; one iteration alone never returns. -/
theorem set_wait_reads_past_buffer :
    (simulateCameraScript 1 (freshHost (memOfList 1000 [0xF5, 10]) false) 1000 0 0
        tables_5C3FD5).isNone = true
      ∧ (simulateCameraScript 2 (freshHost (memOfList 1000 [0xF5, 10]) false) 1000 0 0
          tables_5C3FD5).map (fun r => r.1) = some (3, 20)
      ∧ (simulateCameraScript 2 (freshHost (memOfList 1000 [0xF5, 10, 0xF4]) false) 1000 0 0
          tables_5C3FD5).map (fun r => r.1) = some (2, 19)
      ∧ (memOfList 1000 [0xF5, 10] 1000 = memOfList 1000 [0xF5, 10, 0xF4] 1000
          ∧ memOfList 1000 [0xF5, 10] 1001 = memOfList 1000 [0xF5, 10, 0xF4] 1001) := by
  decide

/-- C6 (amended): for every argument byte `b` at a not yet patched address and any
opcode tables, the 0xF5 iteration on `[0xF5, b]` from position 0 stores `(2 * b) % 256`
at offset 1, sets `framesToWait` to that value and the position to 2, and leaves the
script active, so the call does not return after that iteration and the byte at offset
2, outside the two-byte buffer, is dispatched next; when that byte is the end-of-script
opcode 0xFF and the tables are those of either dialect, the call returns after exactly
two iterations with position 2, `framesToWait = (2 * b) % 256` and the byte at offset 1
equal to `(2 * b) % 256`. -/
theorem set_wait_then_terminal (h : Host) (scriptPtr : Nat) (t : OpcodeTables)
    (hop : readByte h.mem (ptrAdd scriptPtr 0) = 0xF5)
    (hfresh : ptrAdd scriptPtr 1 ∉ h.scriptArgAddressPatched) :
    (loopBody scriptPtr t
        { host := h.emitIfTracing .traceStart, currentPosition := 0, framesToWait := 0,
          isScriptActive := true }).isScriptActive = true
      ∧ (loopBody scriptPtr t
        { host := h.emitIfTracing .traceStart, currentPosition := 0, framesToWait := 0,
          isScriptActive := true }).currentPosition = 2
      ∧ (loopBody scriptPtr t
        { host := h.emitIfTracing .traceStart, currentPosition := 0, framesToWait := 0,
          isScriptActive := true }).framesToWait
          = (2 * readByte h.mem (ptrAdd scriptPtr 1)) % 256
      ∧ readByte (loopBody scriptPtr t
          { host := h.emitIfTracing .traceStart, currentPosition := 0, framesToWait := 0,
            isScriptActive := true }).host.mem (ptrAdd scriptPtr 1)
          = (2 * readByte h.mem (ptrAdd scriptPtr 1)) % 256
      ∧ readByte (loopBody scriptPtr t
          { host := h.emitIfTracing .traceStart, currentPosition := 0, framesToWait := 0,
            isScriptActive := true }).host.mem
          (ptrAdd scriptPtr (loopBody scriptPtr t
            { host := h.emitIfTracing .traceStart, currentPosition := 0, framesToWait := 0,
              isScriptActive := true }).currentPosition)
          = readByte h.mem (ptrAdd scriptPtr 2)
      ∧ simulateCameraScript 1 h scriptPtr 0 0 t = none
      ∧ ((t = tables_5C3FD5 ∨ t = tables_5C23D1) →
          readByte h.mem (ptrAdd scriptPtr 2) = 0xFF →
          ∀ fuel, ∃ hAfter,
            simulateCameraScript (fuel + 2) h scriptPtr 0 0 t
              = some ((2, (2 * readByte h.mem (ptrAdd scriptPtr 1)) % 256), hAfter)
            ∧ readByte hAfter.mem (ptrAdd scriptPtr 1)
              = (2 * readByte h.mem (ptrAdd scriptPtr 1)) % 256) := by
  have h1 := loopBody_F5 scriptPtr t
    { host := h.emitIfTracing .traceStart, currentPosition := 0, framesToWait := 0,
      isScriptActive := true } (by simp [hop])
  have hfresh2 : ptrAdd scriptPtr 1 ∉
      ((h.emitIfTracing .traceStart).emitIfTracing
        (.traceOpcode 0xF5)).scriptArgAddressPatched := by
    simpa using hfresh
  have hval : readByte
      (patchCameraScriptArg
        ((h.emitIfTracing .traceStart).emitIfTracing (.traceOpcode 0xF5)) scriptPtr 1).mem
      (ptrAdd scriptPtr 1) = (2 * readByte h.mem (ptrAdd scriptPtr 1)) % 256 := by
    rw [patch_mem_of_not_mem _ _ _ hfresh2, readByte_writeByte_same, Nat.mul_comm]
    simp
  have hnext : readByte
      (patchCameraScriptArg
        ((h.emitIfTracing .traceStart).emitIfTracing (.traceOpcode 0xF5)) scriptPtr 1).mem
      (ptrAdd scriptPtr 2) = readByte h.mem (ptrAdd scriptPtr 2) := by
    rw [patch_mem_other _ _ _ _ (ptrAdd_ne scriptPtr 2 1 (by decide) (by decide) (by decide))]
    simp
  dsimp only at h1
  rw [hval] at h1
  have hone : simulateCameraScript 1 h scriptPtr 0 0 t = none := by
    unfold simulateCameraScript
    dsimp only
    rw [whileActive_succ_of_active _ _ _ rfl, h1, whileActive_zero_of_active _ _ rfl]
  refine ⟨by rw [h1], by rw [h1], by rw [h1], by rw [h1]; exact hval,
    by rw [h1]; exact hnext, hone, ?_⟩
  intro ht hend
  have hnumF : mapFind 0xFF t.numArgsOpCode = some (-1) := by
    rcases ht with rfl | rfl <;> decide
  have hidxF : mapFind 0xFF t.argIdxDoubleOpCode = none := by
    rcases ht with rfl | rfl <;> decide
  have hdeF : (0xFF : Nat) ∈ t.deactiveOpCodes := by
    rcases ht with rfl | rfl <;> decide
  have hbyte : readByte
      (patchCameraScriptArg
        ((h.emitIfTracing .traceStart).emitIfTracing (.traceOpcode 0xF5)) scriptPtr 1).mem
      (ptrAdd scriptPtr 2) = 0xFF := hnext.trans hend
  have h2 := loopBody_recognised scriptPtr t
    { host := patchCameraScriptArg
        ((h.emitIfTracing .traceStart).emitIfTracing (.traceOpcode 0xF5)) scriptPtr 1,
      currentPosition := 2, framesToWait := (2 * readByte h.mem (ptrAdd scriptPtr 1)) % 256,
      isScriptActive := true } (-1)
    (by rw [hbyte]; decide) (by rw [hbyte]; decide) (by rw [hbyte]; decide)
    (by rw [hbyte]; exact hnumF)
  simp only [hbyte, hidxF, if_pos hdeF] at h2
  have e4 : toUInt16 ((((2 + 1) % 65536 : Nat) : Int) + -1) = 2 := by decide
  rw [e4] at h2
  intro fuel
  refine ⟨_, (simulate_two_steps fuel h scriptPtr 0 0 t _ _ h1 rfl h2 rfl).2, ?_⟩
  simp only [emitIfTracing_mem]
  exact hval

/-- The script `[0xF5, 10, 0xFF]` in a fresh process: after the 0xF5 iteration the byte
at offset 1 is 20 and the script is active; the call returns position 2, wait 20,
byte 20. -/
theorem set_wait_then_terminal_witness :
    readByte (loopBody 1000 tables_5C3FD5
        { host := (freshHost (memOfList 1000 [0xF5, 10, 0xFF]) false).emitIfTracing
            .traceStart,
          currentPosition := 0, framesToWait := 0,
          isScriptActive := true }).host.mem (ptrAdd 1000 1)
        = (2 * readByte (freshHost (memOfList 1000 [0xF5, 10, 0xFF]) false).mem
            (ptrAdd 1000 1)) % 256
      ∧ ∃ hAfter,
        simulateCameraScript 2 (freshHost (memOfList 1000 [0xF5, 10, 0xFF]) false)
            1000 0 0 tables_5C3FD5
          = some ((2,
              (2 * readByte (freshHost (memOfList 1000 [0xF5, 10, 0xFF]) false).mem
                (ptrAdd 1000 1)) % 256), hAfter)
        ∧ readByte hAfter.mem (ptrAdd 1000 1)
          = (2 * readByte (freshHost (memOfList 1000 [0xF5, 10, 0xFF]) false).mem
              (ptrAdd 1000 1)) % 256 :=
  ⟨(set_wait_then_terminal (freshHost (memOfList 1000 [0xF5, 10, 0xFF]) false) 1000
      tables_5C3FD5 (by decide) (by decide)).2.2.2.1,
   (set_wait_then_terminal (freshHost (memOfList 1000 [0xF5, 10, 0xFF]) false) 1000
      tables_5C3FD5 (by decide) (by decide)).2.2.2.2.2.2 (Or.inl rfl) (by decide) 0⟩

/-! ## The loop/restart opcode -/

/-- Once the cursor is `(0, 0)` on a script that starts with `0xFE, 192`, the loop
never ends, whatever the number of iterations allowed. -/
theorem restart_at_origin_never_returns (sp : Nat) (t : OpcodeTables) :
    ∀ (fuel : Nat) (s : SimState), s.isScriptActive = true → s.currentPosition = 0 →
      s.framesToWait = 0 → readByte s.host.mem (ptrAdd sp 0) = 0xFE →
      readByte s.host.mem (ptrAdd sp 1) = 192 →
      whileActive (loopBody sp t) fuel s = none := by
  intro fuel
  induction fuel with
  | zero => intro s ha _ _ _ _; exact whileActive_zero_of_active _ s ha
  | succ n ih =>
    intro s ha hp hw hop hnext
    have hbody := loopBody_FE_restart sp t s (by rw [hp]; exact hop) hw
      (by rw [hp]; exact hnext)
    rw [whileActive_succ_of_active _ _ _ ha, hbody]
    exact ih _ ha rfl rfl (by simpa using hop) (by simpa using hnext)

theorem simulate_restart_at_origin (fuel : Nat) (h : Host) (sp : Nat) (t : OpcodeTables)
    (hop : readByte h.mem (ptrAdd sp 0) = 0xFE) (hnext : readByte h.mem (ptrAdd sp 1) = 192) :
    simulateCameraScript fuel h sp 0 0 t = none := by
  unfold simulateCameraScript
  dsimp only
  rw [restart_at_origin_never_returns sp t fuel _ rfl rfl rfl (by simpa using hop)
    (by simpa using hnext)]

/-- The buffer `[0xFE, 192]` simulated from position 0 with wait 0 never returns
(so it does not return `(0, 0)`), and a restart reached at position 3 of
`[0xF5, 5, 0xF4, 0xFE, 192]` makes the call return `(2, 9)`, not `(0, 0)`. -/
theorem restart_does_not_return_origin :
    (¬ ∃ fuel, (simulateCameraScript fuel (freshHost (memOfList 1000 [0xFE, 192]) false)
        1000 0 0 tables_5C23D1).isSome = true)
      ∧ (simulateCameraScript 3
          (freshHost (memOfList 1000 [0xF5, 5, 0xF4, 0xFE, 192]) false) 1000 3 0
          tables_5C23D1).map (fun r => r.1) = some (2, 9) := by
  refine ⟨?_, by decide⟩
  rintro ⟨fuel, hf⟩
  rw [simulate_restart_at_origin fuel _ 1000 tables_5C23D1 (by decide) (by decide)] at hf
  cases hf

/-- C7 (amended): whenever the opcode at the cursor is 0xFE, `framesToWait` is 0 and the
next byte is 192, the loop iteration resets the cursor to `(0, 0)`, changes neither
memory nor the Patched-Address Set, and keeps the script active, so the call does not
return there but goes on simulating from position 0: with tracing off it returns exactly
what a call started at `(0, 0)` with one iteration less returns, and when the restart
is at position 0 itself (the buffer `[0xFE, 192]`) the call never returns. -/
theorem restart_continues_from_origin (h : Host) (scriptPtr p : Nat) (t : OpcodeTables)
    (hop : readByte h.mem (ptrAdd scriptPtr p) = 0xFE)
    (hnext : readByte h.mem (ptrAdd scriptPtr ((p + 1) % 65536)) = 192) :
    ((loopBody scriptPtr t
        { host := h.emitIfTracing .traceStart, currentPosition := p, framesToWait := 0,
          isScriptActive := true }).currentPosition = 0
      ∧ (loopBody scriptPtr t
        { host := h.emitIfTracing .traceStart, currentPosition := p, framesToWait := 0,
          isScriptActive := true }).framesToWait = 0
      ∧ (loopBody scriptPtr t
        { host := h.emitIfTracing .traceStart, currentPosition := p, framesToWait := 0,
          isScriptActive := true }).isScriptActive = true
      ∧ (loopBody scriptPtr t
        { host := h.emitIfTracing .traceStart, currentPosition := p, framesToWait := 0,
          isScriptActive := true }).host.mem = h.mem
      ∧ (loopBody scriptPtr t
        { host := h.emitIfTracing .traceStart, currentPosition := p, framesToWait := 0,
          isScriptActive := true }).host.scriptArgAddressPatched = h.scriptArgAddressPatched)
      ∧ (h.tracing = false → ∀ fuel,
          simulateCameraScript (fuel + 1) h scriptPtr p 0 t
            = simulateCameraScript fuel h scriptPtr 0 0 t)
      ∧ (p = 0 → ∀ fuel, simulateCameraScript fuel h scriptPtr p 0 t = none) := by
  have hbody := loopBody_FE_restart scriptPtr t
    { host := h.emitIfTracing .traceStart, currentPosition := p, framesToWait := 0,
      isScriptActive := true } (by simpa using hop) rfl (by simpa using hnext)
  refine ⟨?_, ?_, ?_⟩
  · rw [hbody]
    simp
  · intro htr fuel
    have hh : ∀ m, h.emitIfTracing m = h := by
      intro m
      simp [Host.emitIfTracing, htr]
    unfold simulateCameraScript
    dsimp only
    rw [whileActive_succ_of_active _ _ _ rfl, hbody]
    simp only [hh]
  · rintro rfl fuel
    exact simulate_restart_at_origin fuel h scriptPtr t hop (by simpa using hnext)

/-- The restart at position 3 of `[0xF5, 5, 0xF4, 0xFE, 192]`: the call continues from
the origin and returns `(2, 9)`. -/
theorem restart_continues_from_origin_witness :
    simulateCameraScript 3
        (freshHost (memOfList 1000 [0xF5, 5, 0xF4, 0xFE, 192]) false) 1000 3 0 tables_5C3FD5
      = simulateCameraScript 2
        (freshHost (memOfList 1000 [0xF5, 5, 0xF4, 0xFE, 192]) false) 1000 0 0 tables_5C3FD5
    ∧ (simulateCameraScript 2
        (freshHost (memOfList 1000 [0xF5, 5, 0xF4, 0xFE, 192]) false) 1000 0 0
        tables_5C3FD5).map (fun r => r.1) = some (2, 9) :=
  ⟨(restart_continues_from_origin
      (freshHost (memOfList 1000 [0xF5, 5, 0xF4, 0xFE, 192]) false)
      1000 3 tables_5C3FD5 (by decide) (by decide)).2.1 (by decide) 2, by decide⟩

/-! ## Progress of the loop -/

theorem mapFind_some_mem (key : Nat) (v : Int) :
    ∀ l : List (Nat × Int), mapFind key l = some v → (key, v) ∈ l := by
  intro l
  induction l with
  | nil => intro hf; cases hf
  | cons kv rest ih =>
    obtain ⟨k, w⟩ := kv
    intro hf
    unfold mapFind at hf
    split at hf
    · rename_i hk
      cases hf
      subst hk
      exact List.mem_cons_self _ _
    · exact List.mem_cons_of_mem _ (ih hf)

/-- In both dialect tables every opcode that reaches the table lookup and is not
terminal has between 0 and 12 arguments. -/
theorem dialect_args_bounded (t : OpcodeTables) (ht : t = tables_5C3FD5 ∨ t = tables_5C23D1)
    (op : Nat) (numArgs : Int) (h4 : op ≠ 0xF4) (h5 : op ≠ 0xF5) (hE : op ≠ 0xFE)
    (hde : op ∉ t.deactiveOpCodes) (hfind : mapFind op t.numArgsOpCode = some numArgs) :
    0 ≤ numArgs ∧ numArgs ≤ 12 := by
  have hm := mapFind_some_mem op numArgs _ hfind
  rcases ht with rfl | rfl
  · simp only [tables_5C3FD5, List.mem_cons, Prod.mk.injEq, List.mem_singleton,
      List.not_mem_nil, or_false, not_or] at hm hde
    omega
  · simp only [tables_5C23D1, List.mem_cons, Prod.mk.injEq, List.mem_singleton,
      List.not_mem_nil, or_false, not_or] at hm hde
    omega

/-- An iteration started inside a buffer of `n` bytes that is not the restart either
deactivates the script or strictly advances the position. -/
theorem loopBody_progress (sp : Nat) (t : OpcodeTables) (n : Nat) (hn : n + 2 ≤ 65536)
    (hargs : ∀ (op : Nat) (numArgs : Int), op ≠ 0xF4 → op ≠ 0xF5 → op ≠ 0xFE →
      op ∉ t.deactiveOpCodes → mapFind op t.numArgsOpCode = some numArgs →
      0 ≤ numArgs ∧ (n : Int) + 1 + numArgs ≤ 65536)
    (s : SimState) (hp : s.currentPosition < n) (hno : ¬ RestartPending sp s) :
    (loopBody sp t s).isScriptActive = false
      ∨ s.currentPosition < (loopBody sp t s).currentPosition := by
  by_cases h4 : readByte s.host.mem (ptrAdd sp s.currentPosition) = 0xF4
  · by_cases hw : s.framesToWait = 0
    · right
      rw [loopBody_F4_zero sp t s h4 hw]
      dsimp only
      omega
    · left
      rw [loopBody_F4_wait sp t s h4 hw]
  by_cases h5 : readByte s.host.mem (ptrAdd sp s.currentPosition) = 0xF5
  · right
    rw [loopBody_F5 sp t s h5]
    dsimp only
    omega
  by_cases hE : readByte s.host.mem (ptrAdd sp s.currentPosition) = 0xFE
  · right
    have hcont := loopBody_FE_continue sp t s hE (by
      by_cases hw : s.framesToWait = 0
      · right
        intro hnext
        exact hno ⟨hE, hw, hnext⟩
      · exact Or.inl hw)
    rw [hcont.1]
    omega
  cases hfind : mapFind (readByte s.host.mem (ptrAdd sp s.currentPosition)) t.numArgsOpCode with
  | none =>
    left
    rw [loopBody_unrecognised sp t s h4 h5 hE hfind]
  | some numArgs =>
    rw [loopBody_recognised sp t s numArgs h4 h5 hE hfind]
    dsimp only
    by_cases hde : readByte s.host.mem (ptrAdd sp s.currentPosition) ∈ t.deactiveOpCodes
    · left
      rw [if_pos hde]
    · right
      have hb := hargs _ numArgs h4 h5 hE hde hfind
      unfold toUInt16
      omega

theorem whileActive_of_iterate (body : SimState → SimState) :
    ∀ (k : Nat) (s : SimState), (∀ j, j < k → (body^[j] s).isScriptActive = true) →
      (body^[k] s).isScriptActive = false → whileActive body k s = some (body^[k] s) := by
  intro k
  induction k with
  | zero =>
    intro s _ hlast
    exact whileActive_of_inactive body 0 s hlast
  | succ n ih =>
    intro s hact hlast
    rw [whileActive_succ_of_active body n s (hact 0 (Nat.succ_pos n)),
      Function.iterate_succ_apply]
    refine ih (body s) (fun j hj => ?_) (by rwa [Function.iterate_succ_apply] at hlast)
    have := hact (j + 1) (Nat.succ_lt_succ hj)
    rwa [Function.iterate_succ_apply] at this

theorem progress_bound (sp : Nat) (t : OpcodeTables) (n : Nat) (hn : n + 2 ≤ 65536)
    (hargs : ∀ (op : Nat) (numArgs : Int), op ≠ 0xF4 → op ≠ 0xF5 → op ≠ 0xFE →
      op ∉ t.deactiveOpCodes → mapFind op t.numArgsOpCode = some numArgs →
      0 ≤ numArgs ∧ (n : Int) + 1 + numArgs ≤ 65536) :
    ∀ (d : Nat) (s : SimState), n - s.currentPosition ≤ d → s.isScriptActive = true →
      s.currentPosition ≤ n →
      ∃ k, k ≤ n - s.currentPosition
        ∧ (∀ j, j < k → ((loopBody sp t)^[j] s).isScriptActive = true)
        ∧ (((loopBody sp t)^[k] s).isScriptActive = false
            ∨ n ≤ ((loopBody sp t)^[k] s).currentPosition
            ∨ RestartPending sp ((loopBody sp t)^[k] s)) := by
  intro d
  induction d with
  | zero =>
    intro s hd _ hp
    exact ⟨0, Nat.zero_le _, fun j hj => absurd hj (Nat.not_lt_zero j), Or.inr (Or.inl (by
      simp only [Function.iterate_zero, id_eq]; omega))⟩
  | succ d ih =>
    intro s hd ha hp
    by_cases hpn : n ≤ s.currentPosition
    · exact ⟨0, Nat.zero_le _, fun j hj => absurd hj (Nat.not_lt_zero j), Or.inr (Or.inl hpn)⟩
    by_cases hre : RestartPending sp s
    · exact ⟨0, Nat.zero_le _, fun j hj => absurd hj (Nat.not_lt_zero j), Or.inr (Or.inr hre)⟩
    have one : ∀ j, j < 1 → ((loopBody sp t)^[j] s).isScriptActive = true := by
      intro j hj
      have : j = 0 := by omega
      subst this
      exact ha
    by_cases hact : (loopBody sp t s).isScriptActive = true
    · have hlt : s.currentPosition < (loopBody sp t s).currentPosition := by
        rcases loopBody_progress sp t n hn hargs s (by omega) hre with h | h
        · rw [h] at hact
          cases hact
        · exact h
      by_cases hout : n ≤ (loopBody sp t s).currentPosition
      · exact ⟨1, by omega, one, Or.inr (Or.inl hout)⟩
      · obtain ⟨k, hk, hall, hlast⟩ := ih (loopBody sp t s) (by omega) hact (by omega)
        refine ⟨k + 1, by omega, fun j hj => ?_, ?_⟩
        · cases j with
          | zero => exact ha
          | succ j =>
            rw [Function.iterate_succ_apply]
            exact hall j (by omega)
        · rw [Function.iterate_succ_apply]
          exact hlast
    · exact ⟨1, by omega, one, Or.inl (by simpa using hact)⟩

/-- With `stallingTables` the one-byte script `[0x01]` keeps the cursor on its only
opcode for ever. -/
theorem stalling_never_returns (sp : Nat) :
    ∀ (fuel : Nat) (s : SimState), s.isScriptActive = true → s.currentPosition = 0 →
      readByte s.host.mem (ptrAdd sp 0) = 0x01 →
      whileActive (loopBody sp stallingTables) fuel s = none := by
  intro fuel
  induction fuel with
  | zero => intro s ha _ _; exact whileActive_zero_of_active _ s ha
  | succ n ih =>
    intro s ha hp hop
    have hop2 : readByte s.host.mem (ptrAdd sp s.currentPosition) = 0x01 := by
      rw [hp]; exact hop
    have hbody := loopBody_recognised sp stallingTables s (-1)
      (by rw [hop2]; decide) (by rw [hop2]; decide) (by rw [hop2]; decide)
      (by rw [hop2]; decide)
    rw [whileActive_succ_of_active _ _ _ ha, hbody]
    refine ih _ ?_ ?_ ?_
    · dsimp only
      rw [hop2, ha]
      decide
    · dsimp only
      rw [hp]
      decide
    · dsimp only
      rw [hop2]
      simpa [stallingTables, mapFind] using hop

/-- Three scripts on which the termination bound fails. `[0xFE, 192]` simulated from
`(0, 0)` with the 5C3FD5 tables never reaches the terminated state, whatever number of
iterations is allowed, and its loop iteration neither advances the position, nor
decrements `framesToWait`, nor marks the script inactive. The one-byte script `[0xD9]`
is not terminated after one iteration: the cursor has left the buffer and the byte
behind it is dispatched. With a table giving a non-terminal opcode the argument count
-1, the one-byte script `[0x01]` never terminates. -/
theorem termination_bound_fails :
    (¬ ∃ fuel, (simulateCameraScript fuel (freshHost (memOfList 1000 [0xFE, 192]) false)
        1000 0 0 tables_5C3FD5).isSome = true)
      ∧ (loopBody 1000 tables_5C3FD5
          { host := freshHost (memOfList 1000 [0xFE, 192]) false, currentPosition := 0,
            framesToWait := 0, isScriptActive := true }).currentPosition = 0
      ∧ (loopBody 1000 tables_5C3FD5
          { host := freshHost (memOfList 1000 [0xFE, 192]) false, currentPosition := 0,
            framesToWait := 0, isScriptActive := true }).framesToWait = 0
      ∧ (loopBody 1000 tables_5C3FD5
          { host := freshHost (memOfList 1000 [0xFE, 192]) false, currentPosition := 0,
            framesToWait := 0, isScriptActive := true }).isScriptActive = true
      ∧ (simulateCameraScript 1 (freshHost (memOfList 1000 [0xD9]) false) 1000 0 0
          tables_5C3FD5).isNone = true
      ∧ (¬ ∃ fuel, (simulateCameraScript fuel (freshHost (memOfList 1000 [0x01]) false)
          1000 0 0 stallingTables).isSome = true) := by
  refine ⟨?_, by decide, by decide, by decide, by decide, ?_⟩
  · rintro ⟨fuel, hf⟩
    rw [simulate_restart_at_origin fuel _ 1000 tables_5C3FD5 (by decide) (by decide)] at hf
    cases hf
  · rintro ⟨fuel, hf⟩
    unfold simulateCameraScript at hf
    dsimp only at hf
    rw [stalling_never_returns 1000 fuel _ rfl rfl (by decide)] at hf
    cases hf

/-- C1 (amended): take opcode tables in which every opcode that reaches the table
lookup and is not terminal has a non-negative argument count (both dialect tables do),
and a buffer of `n` bytes short enough that the 16-bit cursor cannot wrap inside it.
Then (1) a loop iteration started inside the buffer that is not the 0xFE restart either
marks the script inactive or strictly advances the position; (2) the 0xFE restart sets
the cursor to `(0, 0)` and keeps the script active; (3) a simulation started active at
position `p ≤ n` has, after some `k ≤ n - p` loop iterations, terminated (and then the
loop returns that state), or moved its cursor to or past the end of the buffer, or
arrived at a pending restart. Termination itself is not guaranteed. -/
theorem simulation_progress (scriptPtr : Nat) (t : OpcodeTables) (n : Nat)
    (hn : n + 2 ≤ 65536)
    (hargs : ∀ (op : Nat) (numArgs : Int), op ≠ 0xF4 → op ≠ 0xF5 → op ≠ 0xFE →
      op ∉ t.deactiveOpCodes → mapFind op t.numArgsOpCode = some numArgs →
      0 ≤ numArgs ∧ (n : Int) + 1 + numArgs ≤ 65536) :
    (∀ s : SimState, s.currentPosition < n → ¬ RestartPending scriptPtr s →
        (loopBody scriptPtr t s).isScriptActive = false
          ∨ s.currentPosition < (loopBody scriptPtr t s).currentPosition)
      ∧ (∀ s : SimState, RestartPending scriptPtr s →
          (loopBody scriptPtr t s).currentPosition = 0
            ∧ (loopBody scriptPtr t s).framesToWait = 0
            ∧ (loopBody scriptPtr t s).isScriptActive = s.isScriptActive)
      ∧ (∀ s : SimState, s.isScriptActive = true → s.currentPosition ≤ n →
          ∃ k, k ≤ n - s.currentPosition
            ∧ (∀ j, j < k → ((loopBody scriptPtr t)^[j] s).isScriptActive = true)
            ∧ ((((loopBody scriptPtr t)^[k] s).isScriptActive = false
                  ∧ whileActive (loopBody scriptPtr t) k s
                      = some ((loopBody scriptPtr t)^[k] s))
                ∨ n ≤ ((loopBody scriptPtr t)^[k] s).currentPosition
                ∨ RestartPending scriptPtr ((loopBody scriptPtr t)^[k] s))) := by
  refine ⟨fun s hp hno => loopBody_progress scriptPtr t n hn hargs s hp hno, ?_, ?_⟩
  · intro s hre
    rw [loopBody_FE_restart scriptPtr t s hre.1 hre.2.1 hre.2.2]
    exact ⟨rfl, rfl, rfl⟩
  · intro s ha hp
    obtain ⟨k, hk, hall, hlast⟩ := progress_bound scriptPtr t n hn hargs _ s (Nat.le_refl _) ha hp
    refine ⟨k, hk, hall, ?_⟩
    rcases hlast with h | h | h
    · exact Or.inl ⟨h, whileActive_of_iterate _ k s hall h⟩
    · exact Or.inr (Or.inl h)
    · exact Or.inr (Or.inr h)

/-- The 5C3FD5 tables and the 11-byte script `[0xD8, 1, ..., 9, 0xFF]` started at
position 0: within 11 iterations the loop terminates, leaves the buffer or reaches a
restart. -/
theorem simulation_progress_witness :
    ∃ k, k ≤ 11 - 0
      ∧ (∀ j, j < k → ((loopBody 1000 tables_5C3FD5)^[j]
            { host := freshHost (memOfList 1000 [0xD8, 1, 2, 3, 4, 5, 6, 7, 8, 9, 0xFF]) false,
              currentPosition := 0, framesToWait := 0,
              isScriptActive := true }).isScriptActive = true)
      ∧ ((((loopBody 1000 tables_5C3FD5)^[k]
            { host := freshHost (memOfList 1000 [0xD8, 1, 2, 3, 4, 5, 6, 7, 8, 9, 0xFF]) false,
              currentPosition := 0, framesToWait := 0,
              isScriptActive := true }).isScriptActive = false
            ∧ whileActive (loopBody 1000 tables_5C3FD5) k
                { host := freshHost (memOfList 1000 [0xD8, 1, 2, 3, 4, 5, 6, 7, 8, 9, 0xFF])
                    false,
                  currentPosition := 0, framesToWait := 0, isScriptActive := true }
              = some ((loopBody 1000 tables_5C3FD5)^[k]
                { host := freshHost (memOfList 1000 [0xD8, 1, 2, 3, 4, 5, 6, 7, 8, 9, 0xFF])
                    false,
                  currentPosition := 0, framesToWait := 0, isScriptActive := true }))
          ∨ 11 ≤ ((loopBody 1000 tables_5C3FD5)^[k]
            { host := freshHost (memOfList 1000 [0xD8, 1, 2, 3, 4, 5, 6, 7, 8, 9, 0xFF]) false,
              currentPosition := 0, framesToWait := 0,
              isScriptActive := true }).currentPosition
          ∨ RestartPending 1000 ((loopBody 1000 tables_5C3FD5)^[k]
            { host := freshHost (memOfList 1000 [0xD8, 1, 2, 3, 4, 5, 6, 7, 8, 9, 0xFF]) false,
              currentPosition := 0, framesToWait := 0,
              isScriptActive := true })) :=
  (simulation_progress 1000 tables_5C3FD5 11 (by decide)
    (fun op numArgs h4 h5 hE hde hfind => by
      have := dialect_args_bounded tables_5C3FD5 (Or.inl rfl) op numArgs h4 h5 hE hde hfind
      omega)).2.2
    { host := freshHost (memOfList 1000 [0xD8, 1, 2, 3, 4, 5, 6, 7, 8, 9, 0xFF]) false,
      currentPosition := 0, framesToWait := 0, isScriptActive := true }
    rfl (by decide)

/-! ## Single loop iterations: set-wait, loop/branch and recognised opcodes -/

/-- C18: with byte 0xF5 under the cursor at position `p`, after the loop iteration the
new `framesToWait` is the byte stored after the iteration at buffer index `p + 1` (the
16-bit successor of `p`, literally `p + 1` for `p < 65535`), whatever the previous
`framesToWait` was; the position is `(p + 2) % 65536`; the script keeps its activity;
and the opcode tables are not consulted. -/
theorem set_wait_step (scriptPtr : Nat) (t : OpcodeTables) (s : SimState)
    (hop : readByte s.host.mem (ptrAdd scriptPtr s.currentPosition) = 0xF5) :
    (loopBody scriptPtr t s).framesToWait
        = readByte (loopBody scriptPtr t s).host.mem
            (ptrAdd scriptPtr ((s.currentPosition + 1) % 65536))
      ∧ (s.currentPosition < 65535 →
          (loopBody scriptPtr t s).framesToWait
            = readByte (loopBody scriptPtr t s).host.mem
                (ptrAdd scriptPtr (s.currentPosition + 1)))
      ∧ (∀ w, loopBody scriptPtr t { s with framesToWait := w }
          = loopBody scriptPtr t s)
      ∧ (loopBody scriptPtr t s).currentPosition = (s.currentPosition + 2) % 65536
      ∧ (loopBody scriptPtr t s).isScriptActive = s.isScriptActive
      ∧ (∀ t2, loopBody scriptPtr t2 s = loopBody scriptPtr t s) := by
  have hb := loopBody_F5 scriptPtr t s hop
  refine ⟨by rw [hb], ?_, ?_, ?_, by rw [hb], ?_⟩
  · intro hp
    rw [hb]
    dsimp only
    rw [Nat.mod_eq_of_lt (by omega : s.currentPosition + 1 < 65536)]
  · intro w
    rw [hb, loopBody_F5 scriptPtr t { s with framesToWait := w } hop]
  · rw [hb]
    dsimp only
    omega
  · intro t2
    rw [hb, loopBody_F5 scriptPtr t2 s hop]

/-- The set-wait opcode at position 0 of `[0xF5, 10]` with 99 frames pending: the new
wait is the byte at index 1 after the step. -/
theorem set_wait_step_witness :
    (loopBody 1000 emptyTables
        { host := freshHost (memOfList 1000 [0xF5, 10]) false, currentPosition := 0,
          framesToWait := 99, isScriptActive := true }).framesToWait
      = readByte (loopBody 1000 emptyTables
          { host := freshHost (memOfList 1000 [0xF5, 10]) false, currentPosition := 0,
            framesToWait := 99, isScriptActive := true }).host.mem
          (ptrAdd 1000 ((0 + 1) % 65536)) :=
  (set_wait_step 1000 emptyTables
    { host := freshHost (memOfList 1000 [0xF5, 10]) false, currentPosition := 0,
      framesToWait := 99, isScriptActive := true } (by decide)).1

/-- C19: with byte 0xFE under the cursor at position `p`: if `framesToWait ≠ 0`, or
`framesToWait = 0` and the byte at `p + 1` is not 192, the loop iteration leaves
`framesToWait`, memory and the Patched-Address Set unchanged, keeps the script's
activity and leaves the position at the 16-bit successor of `p` (`p + 1` for
`p < 65535`), so that the byte under the new cursor is the peeked byte; if
`framesToWait = 0` and the byte at `p + 1` is 192 the iteration sets the cursor to
`(0, 0)` and keeps the script's activity. -/
theorem loop_branch_step (scriptPtr : Nat) (t : OpcodeTables) (s : SimState)
    (hop : readByte s.host.mem (ptrAdd scriptPtr s.currentPosition) = 0xFE) :
    ((s.framesToWait ≠ 0
        ∨ readByte s.host.mem (ptrAdd scriptPtr ((s.currentPosition + 1) % 65536)) ≠ 192) →
      (loopBody scriptPtr t s).framesToWait = s.framesToWait
        ∧ (loopBody scriptPtr t s).host.mem = s.host.mem
        ∧ (loopBody scriptPtr t s).host.scriptArgAddressPatched
            = s.host.scriptArgAddressPatched
        ∧ (loopBody scriptPtr t s).isScriptActive = s.isScriptActive
        ∧ (loopBody scriptPtr t s).currentPosition = (s.currentPosition + 1) % 65536
        ∧ (s.currentPosition < 65535 →
            (loopBody scriptPtr t s).currentPosition = s.currentPosition + 1)
        ∧ readByte (loopBody scriptPtr t s).host.mem
              (ptrAdd scriptPtr (loopBody scriptPtr t s).currentPosition)
            = readByte s.host.mem (ptrAdd scriptPtr ((s.currentPosition + 1) % 65536)))
      ∧ (s.framesToWait = 0 →
          readByte s.host.mem (ptrAdd scriptPtr ((s.currentPosition + 1) % 65536)) = 192 →
          (loopBody scriptPtr t s).currentPosition = 0
            ∧ (loopBody scriptPtr t s).framesToWait = 0
            ∧ (loopBody scriptPtr t s).isScriptActive = s.isScriptActive) := by
  constructor
  · intro hno
    obtain ⟨hpos, hwait, hact, hmem, hset⟩ := loopBody_FE_continue scriptPtr t s hop hno
    refine ⟨hwait, hmem, hset, hact, hpos, ?_, ?_⟩
    · intro hp
      rw [hpos, Nat.mod_eq_of_lt (by omega : s.currentPosition + 1 < 65536)]
    · rw [hmem, hpos]
  · intro hw hnext
    rw [loopBody_FE_restart scriptPtr t s hop hw hnext]
    exact ⟨rfl, rfl, rfl⟩

/-- The script `[0xFE, 7]` at position 0 with wait 0: the iteration moves to
position 1 and changes nothing else. -/
theorem loop_branch_step_witness :
    (loopBody 1000 tables_5C3FD5
        { host := freshHost (memOfList 1000 [0xFE, 7]) false, currentPosition := 0,
          framesToWait := 0, isScriptActive := true }).currentPosition = (0 + 1) % 65536
      ∧ (loopBody 1000 tables_5C3FD5
        { host := freshHost (memOfList 1000 [0xFE, 7]) false, currentPosition := 0,
          framesToWait := 0, isScriptActive := true }).isScriptActive = true :=
  ⟨((loop_branch_step 1000 tables_5C3FD5
      { host := freshHost (memOfList 1000 [0xFE, 7]) false, currentPosition := 0,
        framesToWait := 0, isScriptActive := true } (by decide)).1
      (Or.inr (by decide))).2.2.2.2.1,
   ((loop_branch_step 1000 tables_5C3FD5
      { host := freshHost (memOfList 1000 [0xFE, 7]) false, currentPosition := 0,
        framesToWait := 0, isScriptActive := true } (by decide)).1
      (Or.inr (by decide))).2.2.2.1⟩

/-- C20: for any opcode tables and any position `p`, when the opcode `op` under the
cursor is none of 0xF4, 0xF5, 0xFE and is a key of `numArgsOpCode`, the loop iteration
sets the position to `(p + 1 + numArgs[op]) mod 2^16`, leaves `framesToWait` unchanged,
and an active script becomes inactive if and only if `op` is in `deactiveOpCodes`. -/
theorem recognised_opcode_step (scriptPtr : Nat) (t : OpcodeTables) (s : SimState)
    (numArgs : Int)
    (h4 : readByte s.host.mem (ptrAdd scriptPtr s.currentPosition) ≠ 0xF4)
    (h5 : readByte s.host.mem (ptrAdd scriptPtr s.currentPosition) ≠ 0xF5)
    (hE : readByte s.host.mem (ptrAdd scriptPtr s.currentPosition) ≠ 0xFE)
    (hfind : mapFind (readByte s.host.mem (ptrAdd scriptPtr s.currentPosition))
      t.numArgsOpCode = some numArgs)
    (hact : s.isScriptActive = true) :
    ((loopBody scriptPtr t s).currentPosition : Int)
        = ((s.currentPosition : Int) + 1 + numArgs) % 65536
      ∧ (loopBody scriptPtr t s).framesToWait = s.framesToWait
      ∧ ((loopBody scriptPtr t s).isScriptActive = false
          ↔ readByte s.host.mem (ptrAdd scriptPtr s.currentPosition) ∈ t.deactiveOpCodes) := by
  rw [loopBody_recognised scriptPtr t s numArgs h4 h5 hE hfind]
  dsimp only
  refine ⟨?_, rfl, ?_⟩
  · unfold toUInt16
    omega
  · by_cases hde : readByte s.host.mem (ptrAdd scriptPtr s.currentPosition) ∈ t.deactiveOpCodes
    · simp [hde]
    · simp [hde, hact]

/-- The opcode 0xF0 (8 arguments, terminal in the 5C3FD5 tables) at position 0. -/
theorem recognised_opcode_step_witness :
    (((loopBody 1000 tables_5C3FD5
        { host := freshHost (memOfList 1000 [0xF0]) false, currentPosition := 0,
          framesToWait := 3, isScriptActive := true }).currentPosition : Nat) : Int)
      = (((0 : Nat) : Int) + 1 + 8) % 65536
    ∧ (loopBody 1000 tables_5C3FD5
        { host := freshHost (memOfList 1000 [0xF0]) false, currentPosition := 0,
          framesToWait := 3, isScriptActive := true }).framesToWait = 3 :=
  ⟨(recognised_opcode_step 1000 tables_5C3FD5
      { host := freshHost (memOfList 1000 [0xF0]) false, currentPosition := 0,
        framesToWait := 3, isScriptActive := true } 8
      (by decide) (by decide) (by decide) (by decide) rfl).1,
   (recognised_opcode_step 1000 tables_5C3FD5
      { host := freshHost (memOfList 1000 [0xF0]) false, currentPosition := 0,
        framesToWait := 3, isScriptActive := true } 8
      (by decide) (by decide) (by decide) (by decide) rfl).2.1⟩

/-! ## Location of the doubled argument -/

/-- Where the patcher is applied by a recognised opcode with a doubled-argument offset
`d`: at the index `(p + 1 + d) mod 256`, the `byte` the argument of
`patchCameraScriptArg` is converted to; every byte at another address keeps its value. -/
theorem doubled_argument_location (scriptPtr : Nat) (t : OpcodeTables) (s : SimState)
    (numArgs d : Int)
    (h4 : readByte s.host.mem (ptrAdd scriptPtr s.currentPosition) ≠ 0xF4)
    (h5 : readByte s.host.mem (ptrAdd scriptPtr s.currentPosition) ≠ 0xF5)
    (hE : readByte s.host.mem (ptrAdd scriptPtr s.currentPosition) ≠ 0xFE)
    (hfind : mapFind (readByte s.host.mem (ptrAdd scriptPtr s.currentPosition))
      t.numArgsOpCode = some numArgs)
    (hidx : mapFind (readByte s.host.mem (ptrAdd scriptPtr s.currentPosition))
      t.argIdxDoubleOpCode = some d) :
    (loopBody scriptPtr t s).host
        = patchCameraScriptArg
            (s.host.emitIfTracing
              (.traceOpcode (readByte s.host.mem (ptrAdd scriptPtr s.currentPosition))))
            scriptPtr (toByte ((((s.currentPosition + 1) % 65536 : Nat) : Int) + d))
      ∧ ∀ a, a ≠ ptrAdd scriptPtr (toByte ((((s.currentPosition + 1) % 65536 : Nat) : Int) + d)) →
          readByte (loopBody scriptPtr t s).host.mem a = readByte s.host.mem a := by
  rw [loopBody_recognised scriptPtr t s numArgs h4 h5 hE hfind]
  dsimp only
  rw [hidx]
  refine ⟨rfl, fun a ha => ?_⟩
  dsimp only
  rw [patch_mem_other _ _ _ _ ha, emitIfTracing_mem]

/-- C11 (evaluation at a failing input): with the 5C3FD5 tables, the opcode 0xE2 (one
argument, doubled-argument offset 0) at position 300 of `longScriptMem` and nothing
patched before, the loop iteration leaves the argument byte at index 301 at its value
10, doubles the byte at index 45 (= 301 mod 256) from 7 to 14 and records address
`1000 + 45` as patched; the whole call does the same and returns position 303. -/
theorem doubled_argument_patched_at_truncated_index :
    mapFind 0xE2 tables_5C3FD5.numArgsOpCode = some 1
      ∧ mapFind 0xE2 tables_5C3FD5.argIdxDoubleOpCode = some 0
      ∧ readByte (freshHost longScriptMem false).mem (ptrAdd 1000 300) = 0xE2
      ∧ readByte (loopBody 1000 tables_5C3FD5
          { host := freshHost longScriptMem false, currentPosition := 300,
            framesToWait := 0, isScriptActive := true }).host.mem (ptrAdd 1000 301) = 10
      ∧ readByte (loopBody 1000 tables_5C3FD5
          { host := freshHost longScriptMem false, currentPosition := 300,
            framesToWait := 0, isScriptActive := true }).host.mem (ptrAdd 1000 45) = 14
      ∧ (loopBody 1000 tables_5C3FD5
          { host := freshHost longScriptMem false, currentPosition := 300,
            framesToWait := 0, isScriptActive := true }).host.scriptArgAddressPatched
          = [ptrAdd 1000 45]
      ∧ (loopBody 1000 tables_5C3FD5
          { host := freshHost longScriptMem false, currentPosition := 300,
            framesToWait := 0, isScriptActive := true }).currentPosition = 302
      ∧ (simulateCameraScript 2 (freshHost longScriptMem false) 1000 300 0
          tables_5C3FD5).map
            (fun r => (r.1, readByte r.2.mem 1301, readByte r.2.mem 1045,
              r.2.scriptArgAddressPatched))
          = some ((303, 0), 10, 14, [1045]) := by
  decide

/-! ## The log does not influence the simulation -/

@[simp] theorem eraseLog_emit (h : Host) (m : LogMsg) : (h.emit m).eraseLog = h.eraseLog := rfl

@[simp] theorem eraseLog_emitIfTracing (h : Host) (m : LogMsg) :
    (h.emitIfTracing m).eraseLog = h.eraseLog := by
  unfold Host.emitIfTracing
  split <;> rfl

@[simp] theorem eraseLog_eraseLog (h : Host) : h.eraseLog.eraseLog = h.eraseLog := rfl

@[simp] theorem eraseLog_mem (h : Host) : h.eraseLog.mem = h.mem := rfl

@[simp] theorem eraseLog_set (h : Host) :
    h.eraseLog.scriptArgAddressPatched = h.scriptArgAddressPatched := rfl

@[simp] theorem eraseLog_tracing (h : Host) : h.eraseLog.tracing = h.tracing := rfl

theorem eraseLog_patch (h : Host) (sp pos : Nat) :
    (patchCameraScriptArg h sp pos).eraseLog
      = (patchCameraScriptArg h.eraseLog sp pos).eraseLog := by
  unfold patchCameraScriptArg
  dsimp only [eraseLog_mem, eraseLog_set]
  by_cases hin : ptrAdd sp pos ∈ h.scriptArgAddressPatched
  · simp only [hin, if_true]
    rfl
  · simp only [hin, if_false]
    split <;> rfl

theorem eraseLog_patch_traced (h : Host) (m : LogMsg) (sp pos : Nat) :
    (patchCameraScriptArg (h.emitIfTracing m) sp pos).eraseLog
      = (patchCameraScriptArg (h.eraseLog.emitIfTracing m) sp pos).eraseLog := by
  have hp := eraseLog_patch (h.emitIfTracing m) sp pos
  have hq := eraseLog_patch (h.eraseLog.emitIfTracing m) sp pos
  rw [eraseLog_emitIfTracing] at hp hq
  rw [eraseLog_eraseLog] at hq
  exact hp.trans hq.symm

theorem loopBody_FE_continue_eq (sp : Nat) (t : OpcodeTables) (s : SimState)
    (hop : readByte s.host.mem (ptrAdd sp s.currentPosition) = 0xFE)
    (hno : s.framesToWait ≠ 0
      ∨ readByte s.host.mem (ptrAdd sp ((s.currentPosition + 1) % 65536)) ≠ 192) :
    loopBody sp t s =
      { s with
        host :=
          if s.framesToWait = 0 then
            (s.host.emitIfTracing (.traceOpcode 0xFE)).emitIfTracing
              (.traceFE (readByte s.host.mem (ptrAdd sp ((s.currentPosition + 1) % 65536))))
          else s.host.emitIfTracing (.traceOpcode 0xFE)
        currentPosition := (s.currentPosition + 1) % 65536 } := by
  unfold loopBody
  dsimp only
  rw [if_neg (by rw [hop]; decide), if_neg (by rw [hop]; decide), if_pos hop, hop]
  by_cases hw : s.framesToWait = 0
  · have hnext := hno.resolve_left (fun h => h hw)
    rw [if_pos hw, if_pos hw, emitIfTracing_mem, if_neg hnext]
  · rw [if_neg hw, if_neg hw]

theorem eraseLog_loopBody (sp : Nat) (t : OpcodeTables) (s : SimState) :
    (loopBody sp t s).eraseLog = (loopBody sp t s.eraseLog).eraseLog := by
  have hpos : s.eraseLog.currentPosition = s.currentPosition := rfl
  by_cases h4 : readByte s.host.mem (ptrAdd sp s.currentPosition) = 0xF4
  · by_cases hw : s.framesToWait = 0
    · rw [loopBody_F4_zero sp t s h4 hw, loopBody_F4_zero sp t s.eraseLog h4 hw]
      simp [SimState.eraseLog]
    · rw [loopBody_F4_wait sp t s h4 hw, loopBody_F4_wait sp t s.eraseLog h4 hw]
      simp [SimState.eraseLog]
  by_cases h5 : readByte s.host.mem (ptrAdd sp s.currentPosition) = 0xF5
  · rw [loopBody_F5 sp t s h5, loopBody_F5 sp t s.eraseLog h5]
    have hpq := eraseLog_patch_traced s.host (.traceOpcode 0xF5) sp
      ((s.currentPosition + 1) % 65536 % 256)
    have hm := congrArg Host.mem hpq
    simp only [eraseLog_mem] at hm
    simp only [SimState.eraseLog, hpos, hm, hpq]
  by_cases hE : readByte s.host.mem (ptrAdd sp s.currentPosition) = 0xFE
  · by_cases hre : s.framesToWait = 0
        ∧ readByte s.host.mem (ptrAdd sp ((s.currentPosition + 1) % 65536)) = 192
    · rw [loopBody_FE_restart sp t s hE hre.1 hre.2,
        loopBody_FE_restart sp t s.eraseLog hE hre.1 hre.2]
      simp [SimState.eraseLog]
    · have hno : s.framesToWait ≠ 0
          ∨ readByte s.host.mem (ptrAdd sp ((s.currentPosition + 1) % 65536)) ≠ 192 := by
        by_cases hw : s.framesToWait = 0
        · exact Or.inr (fun hn => hre ⟨hw, hn⟩)
        · exact Or.inl hw
      rw [loopBody_FE_continue_eq sp t s hE hno,
        loopBody_FE_continue_eq sp t s.eraseLog hE hno]
      have hwait : s.eraseLog.framesToWait = s.framesToWait := rfl
      have hmem : s.eraseLog.host.mem = s.host.mem := rfl
      simp only [SimState.eraseLog, hwait, hmem, hpos]
      split <;> simp
  cases hfind : mapFind (readByte s.host.mem (ptrAdd sp s.currentPosition)) t.numArgsOpCode with
  | none =>
    rw [loopBody_unrecognised sp t s h4 h5 hE hfind,
      loopBody_unrecognised sp t s.eraseLog h4 h5 hE hfind]
    have htr : s.eraseLog.host.tracing = s.host.tracing := rfl
    have hmem : s.eraseLog.host.mem = s.host.mem := rfl
    simp only [SimState.eraseLog, htr, hmem, hpos]
    by_cases htr2 : s.host.tracing = true <;> simp [htr2]
  | some numArgs =>
    rw [loopBody_recognised sp t s numArgs h4 h5 hE hfind,
      loopBody_recognised sp t s.eraseLog numArgs h4 h5 hE hfind]
    have hmem : s.eraseLog.host.mem = s.host.mem := rfl
    have hact : s.eraseLog.isScriptActive = s.isScriptActive := rfl
    have hwait : s.eraseLog.framesToWait = s.framesToWait := rfl
    simp only [SimState.eraseLog, hmem, hpos, hact, hwait]
    cases hidx : mapFind (readByte s.host.mem (ptrAdd sp s.currentPosition))
        t.argIdxDoubleOpCode with
    | none => simp [hidx]
    | some d =>
      simp only [eraseLog_mem, hidx]
      rw [eraseLog_patch_traced]

theorem eraseLog_whileActive (sp : Nat) (t : OpcodeTables) :
    ∀ (fuel : Nat) (s : SimState),
      (whileActive (loopBody sp t) fuel s).map SimState.eraseLog
        = (whileActive (loopBody sp t) fuel s.eraseLog).map SimState.eraseLog := by
  intro fuel
  induction fuel with
  | zero =>
    intro s
    have hact : s.eraseLog.isScriptActive = s.isScriptActive := rfl
    unfold whileActive
    rw [hact]
    split
    · rfl
    · rfl
  | succ n ih =>
    intro s
    have hact : s.eraseLog.isScriptActive = s.isScriptActive := rfl
    unfold whileActive
    rw [hact]
    split
    · rw [ih (loopBody sp t s), ih (loopBody sp t s.eraseLog), eraseLog_loopBody sp t s]
    · rfl

/-- Two states that agree up to the log yield loop results that agree up to the log. -/
theorem whileActive_congr_eraseLog (sp : Nat) (t : OpcodeTables) (fuel : Nat)
    (s r : SimState) (hsr : s.eraseLog = r.eraseLog) :
    (whileActive (loopBody sp t) fuel s).map SimState.eraseLog
      = (whileActive (loopBody sp t) fuel r).map SimState.eraseLog := by
  rw [eraseLog_whileActive sp t fuel s, eraseLog_whileActive sp t fuel r, hsr]

theorem eraseLog_eq_fields (s r : SimState) (hsr : s.eraseLog = r.eraseLog) :
    s.currentPosition = r.currentPosition ∧ s.framesToWait = r.framesToWait
      ∧ s.host.mem = r.host.mem
      ∧ s.host.scriptArgAddressPatched = r.host.scriptArgAddressPatched := by
  have h1 := congrArg SimState.currentPosition hsr
  have h2 := congrArg SimState.framesToWait hsr
  have h3 := congrArg (fun x => x.host.mem) hsr
  have h4 := congrArg (fun x => x.host.scriptArgAddressPatched) hsr
  exact ⟨h1, h2, h3, h4⟩

/-- Calls started from process states that agree up to the log return the same cursor,
the same memory and the same Patched-Address Set, or both do not return. -/
theorem simulate_from_states_up_to_log (sp : Nat) (t : OpcodeTables) (fuel : Nat)
    (a b : SimState) (hab : a.eraseLog = b.eraseLog) :
    (match whileActive (loopBody sp t) fuel a with
      | none => none
      | some s => some ((s.currentPosition, s.framesToWait),
          (s.host.emitIfTracing .traceEnd).mem,
          (s.host.emitIfTracing .traceEnd).scriptArgAddressPatched))
      = (match whileActive (loopBody sp t) fuel b with
          | none => none
          | some s => some ((s.currentPosition, s.framesToWait),
              (s.host.emitIfTracing .traceEnd).mem,
              (s.host.emitIfTracing .traceEnd).scriptArgAddressPatched)) := by
  have hc := whileActive_congr_eraseLog sp t fuel a b hab
  cases hA : whileActive (loopBody sp t) fuel a with
  | none =>
    cases hB : whileActive (loopBody sp t) fuel b with
    | none => rfl
    | some y => rw [hA, hB] at hc; cases hc
  | some x =>
    cases hB : whileActive (loopBody sp t) fuel b with
    | none => rw [hA, hB] at hc; cases hc
    | some y =>
      rw [hA, hB] at hc
      have hxy : x.eraseLog = y.eraseLog := by simpa using hc
      obtain ⟨h1, h2, h3, h4⟩ := eraseLog_eq_fields x y hxy
      simp only [emitIfTracing_mem, emitIfTracing_set, h1, h2, h3, h4]

/-! ## The wait-decrement opcode with the wait exhausted -/

/-- C17: with byte 0xF4 at position `p` and `framesToWait = 0`, the loop iteration only
moves the position to the 16-bit successor of `p` (`p + 1` for `p < 65535`): wait,
activity, memory and the Patched-Address Set are unchanged (and with tracing off the
whole process state is). A call started at `(p, 0)` behaves like a call started at the
successor position with wait 0 and one iteration less: both return the same cursor, the
same final memory and the same Patched-Address Set, or neither returns; with tracing
off the two calls are equal altogether. -/
theorem wait_exhausted_is_consumed (scriptPtr : Nat) (t : OpcodeTables) (h : Host) (p : Nat)
    (hop : readByte h.mem (ptrAdd scriptPtr p) = 0xF4) :
    (∀ s : SimState, s.host = h → s.currentPosition = p → s.framesToWait = 0 →
        (loopBody scriptPtr t s).currentPosition = (p + 1) % 65536
          ∧ (p < 65535 → (loopBody scriptPtr t s).currentPosition = p + 1)
          ∧ (loopBody scriptPtr t s).framesToWait = 0
          ∧ (loopBody scriptPtr t s).isScriptActive = s.isScriptActive
          ∧ (loopBody scriptPtr t s).host.mem = h.mem
          ∧ (loopBody scriptPtr t s).host.scriptArgAddressPatched = h.scriptArgAddressPatched
          ∧ (h.tracing = false → (loopBody scriptPtr t s).host = h))
      ∧ (∀ fuel,
          (simulateCameraScript (fuel + 1) h scriptPtr p 0 t).map
              (fun r => (r.1, r.2.mem, r.2.scriptArgAddressPatched))
            = (simulateCameraScript fuel h scriptPtr ((p + 1) % 65536) 0 t).map
              (fun r => (r.1, r.2.mem, r.2.scriptArgAddressPatched)))
      ∧ (∀ fuel,
          (simulateCameraScript (fuel + 1) h scriptPtr p 0 t).isSome
            = (simulateCameraScript fuel h scriptPtr ((p + 1) % 65536) 0 t).isSome)
      ∧ (h.tracing = false → ∀ fuel,
          simulateCameraScript (fuel + 1) h scriptPtr p 0 t
            = simulateCameraScript fuel h scriptPtr ((p + 1) % 65536) 0 t)
      ∧ (p < 65535 → ∀ fuel,
          (simulateCameraScript (fuel + 1) h scriptPtr p 0 t).map
              (fun r => (r.1, r.2.mem, r.2.scriptArgAddressPatched))
            = (simulateCameraScript fuel h scriptPtr (p + 1) 0 t).map
              (fun r => (r.1, r.2.mem, r.2.scriptArgAddressPatched))) := by
  have hbody := loopBody_F4_zero scriptPtr t
    { host := h.emitIfTracing .traceStart, currentPosition := p, framesToWait := 0,
      isScriptActive := true } (by simpa using hop) rfl
  dsimp only at hbody
  have hmap : ∀ fuel,
      (simulateCameraScript (fuel + 1) h scriptPtr p 0 t).map
          (fun r => (r.1, r.2.mem, r.2.scriptArgAddressPatched))
        = (simulateCameraScript fuel h scriptPtr ((p + 1) % 65536) 0 t).map
          (fun r => (r.1, r.2.mem, r.2.scriptArgAddressPatched)) := by
    intro fuel
    have hc := simulate_from_states_up_to_log scriptPtr t fuel
      { host := (h.emitIfTracing .traceStart).emitIfTracing (.traceOpcode 0xF4),
        currentPosition := (p + 1) % 65536, framesToWait := 0, isScriptActive := true }
      { host := h.emitIfTracing .traceStart, currentPosition := (p + 1) % 65536,
        framesToWait := 0, isScriptActive := true }
      (by simp [SimState.eraseLog])
    unfold simulateCameraScript
    dsimp only
    rw [whileActive_succ_of_active _ _ _ rfl, hbody]
    revert hc
    cases whileActive (loopBody scriptPtr t) fuel
        { host := (h.emitIfTracing .traceStart).emitIfTracing (.traceOpcode 0xF4),
          currentPosition := (p + 1) % 65536, framesToWait := 0, isScriptActive := true } <;>
      cases whileActive (loopBody scriptPtr t) fuel
        { host := h.emitIfTracing .traceStart, currentPosition := (p + 1) % 65536,
          framesToWait := 0, isScriptActive := true } <;>
      intro hc <;> first | rfl | (simp at hc; done) | (simpa using hc)
  refine ⟨?_, hmap, ?_, ?_, ?_⟩
  · intro s hs hp hw
    subst hs hp
    rw [loopBody_F4_zero scriptPtr t s hop hw]
    refine ⟨rfl, fun hlt => ?_, hw, rfl, by simp, by simp, fun htr => ?_⟩
    · dsimp only
      exact Nat.mod_eq_of_lt (by omega)
    · simp [Host.emitIfTracing, htr]
  · intro fuel
    have := congrArg Option.isSome (hmap fuel)
    simpa using this
  · intro htr fuel
    have hh : ∀ m, h.emitIfTracing m = h := by
      intro m
      simp [Host.emitIfTracing, htr]
    unfold simulateCameraScript
    dsimp only
    rw [whileActive_succ_of_active _ _ _ rfl, hbody]
    simp only [hh]
  · intro hlt fuel
    have := hmap fuel
    rwa [Nat.mod_eq_of_lt (by omega : p + 1 < 65536)] at this

/-- The script `[0xF4, 0xF5, 3, 0xF4]` from `(0, 0)`: the exhausted wait opcode at
position 0 is consumed, and the call returns what a call from `(1, 0)` returns. -/
theorem wait_exhausted_is_consumed_witness :
    (simulateCameraScript 3 (freshHost (memOfList 1000 [0xF4, 0xF5, 3, 0xF4]) true) 1000 0 0
        tables_5C3FD5).map (fun r => (r.1, r.2.mem, r.2.scriptArgAddressPatched))
      = (simulateCameraScript 2 (freshHost (memOfList 1000 [0xF4, 0xF5, 3, 0xF4]) true) 1000
          ((0 + 1) % 65536) 0 tables_5C3FD5).map
            (fun r => (r.1, r.2.mem, r.2.scriptArgAddressPatched))
    ∧ (simulateCameraScript 2 (freshHost (memOfList 1000 [0xF4, 0xF5, 3, 0xF4]) true) 1000
          1 0 tables_5C3FD5).map (fun r => r.1) = some (3, 5) :=
  ⟨(wait_exhausted_is_consumed 1000 tables_5C3FD5
      (freshHost (memOfList 1000 [0xF4, 0xF5, 3, 0xF4]) true) 0 (by decide)).2.1 2,
   by decide⟩

/-! ## The script pointer resolver -/

theorem toUInt32_add_toInt32 (a x : Int) : toUInt32 (a + toInt32 x) = toUInt32 (a + x) := by
  unfold toUInt32 toInt32
  omega

/-- With the sample table the selector 0 and the selector -3 computation carried out
with the index `3 * 0 + 0` give different buffers (2024 and 2100): the two modes read
different table-header words. -/
theorem resolver_modes_read_different_headers :
    getCameraScriptPointer sampleExternals resolverMem 0 0 false = 2024
      ∧ getCameraScriptPointer sampleExternals resolverMem (3 * 0 + 0) (-3) false = 2100 := by
  decide

/-- C12 (amended): for every dialect, variation index `v` and selector `s ≥ 0`,
`getCameraScriptPointer` is the two-level offset chain with index `3 * s + v` and the
table-header word at the dialect's internal offset (0 or 4) from the table origin,
while selector -3 is the same chain with index `v` and the table-header word 8 bytes
further on: the two modes differ in the index scaled by 4 and in the header word. -/
theorem resolver_offset_chain (ext : Externals) (mem : Nat → Nat) (v s : Int)
    (isSub5C3FD5 : Bool) (hs : 0 ≤ s) :
    getCameraScriptPointer ext mem v s isSub5C3FD5
        = offsetChain mem (readDWord mem ext.battle_camera_scripts_9A13BC)
            (readDWord mem ext.battle_camera_script_offset)
            (if isSub5C3FD5 then 4 else 0) (3 * s + v)
      ∧ getCameraScriptPointer ext mem v (-3) isSub5C3FD5
        = offsetChain mem (readDWord mem ext.battle_camera_scripts_9A13BC)
            (readDWord mem ext.battle_camera_script_offset)
            (8 + (if isSub5C3FD5 then 4 else 0)) v := by
  have h1 : s ≠ -1 := by omega
  have h2 : s ≠ -2 := by omega
  have h3 : s ≠ -3 := by omega
  constructor
  · unfold getCameraScriptPointer offsetChain
    simp only [h1, h2, h3, if_false]
    rw [toUInt32_add_toInt32, toUInt32_add_toInt32]
    have e : (3 * s + v) * 4 = 4 * (3 * s + v) := by ring
    rw [e, ← add_sub_assoc]
  · unfold getCameraScriptPointer offsetChain
    have e1 : ((-3 : Int) = -1) = False := by decide
    have e2 : ((-3 : Int) = -2) = False := by decide
    simp only [e1, e2, if_false, if_true]
    rw [toUInt32_add_toInt32, toUInt32_add_toInt32]
    have e : v * 4 = 4 * v := by ring
    have e3 : ∀ x : Int, x + 8 + (if isSub5C3FD5 = true then 4 else 0)
        = x + (8 + (if isSub5C3FD5 = true then 4 else 0)) := by
      intro x; ring
    rw [e, ← add_sub_assoc, e3]

/-- Selector 2 with variation 1 in the 5C3FD5 dialect on the sample table. -/
theorem resolver_offset_chain_witness :
    getCameraScriptPointer sampleExternals resolverMem 1 2 true
      = offsetChain resolverMem (readDWord resolverMem sampleExternals.battle_camera_scripts_9A13BC)
          (readDWord resolverMem sampleExternals.battle_camera_script_offset)
          (if true = true then 4 else 0) (3 * 2 + 1) :=
  (resolver_offset_chain sampleExternals resolverMem 1 2 true (by decide)).1

/-! ## The camera function dispatch shim -/

theorem compensateSlot_handles (f : Int → Int) (g : Game) (a : Nat) :
    (compensateSlot f g a).camera_fn_array = g.camera_fn_array := by
  unfold compensateSlot
  split <;> rfl

theorem compensateSlot_other (f : Int → Int) (g : Game) (a i : Nat) (hia : i ≠ a) :
    (compensateSlot f g a).battle_camera_data_field_4 i = g.battle_camera_data_field_4 i
      ∧ (compensateSlot f g a).isSpecialCameraFunction i = g.isSpecialCameraFunction i := by
  unfold compensateSlot
  split
  · simp [Function.update, hia]
  · exact ⟨rfl, rfl⟩

theorem compensateSlot_fire (f : Int → Int) (g : Game) (a : Nat)
    (hc : g.camera_fn_array a ≠ 0 ∧ g.isSpecialCameraFunction a = true) :
    (compensateSlot f g a).battle_camera_data_field_4 a
        = f (g.battle_camera_data_field_4 a * 2)
      ∧ (compensateSlot f g a).isSpecialCameraFunction a = false := by
  unfold compensateSlot
  rw [if_pos hc]
  simp

theorem compensateSlot_skip (f : Int → Int) (g : Game) (a : Nat)
    (hc : ¬ (g.camera_fn_array a ≠ 0 ∧ g.isSpecialCameraFunction a = true)) :
    compensateSlot f g a = g := by
  unfold compensateSlot
  rw [if_neg hc]

/-- Effect of the loop body folded over a duplicate-free list of slot indices. -/
theorem foldl_compensateSlot (f : Int → Int) :
    ∀ (l : List Nat) (g : Game), l.Nodup →
      (l.foldl (compensateSlot f) g).camera_fn_array = g.camera_fn_array
        ∧ ∀ i,
          ((i ∈ l ∧ g.camera_fn_array i ≠ 0 ∧ g.isSpecialCameraFunction i = true) →
            (l.foldl (compensateSlot f) g).battle_camera_data_field_4 i
                = f (g.battle_camera_data_field_4 i * 2)
              ∧ (l.foldl (compensateSlot f) g).isSpecialCameraFunction i = false)
          ∧ (¬ (i ∈ l ∧ g.camera_fn_array i ≠ 0 ∧ g.isSpecialCameraFunction i = true) →
            (l.foldl (compensateSlot f) g).battle_camera_data_field_4 i
                = g.battle_camera_data_field_4 i
              ∧ (l.foldl (compensateSlot f) g).isSpecialCameraFunction i
                = g.isSpecialCameraFunction i) := by
  intro l
  induction l with
  | nil =>
    intro g _
    refine ⟨rfl, fun i => ⟨fun h => absurd h.1 (List.not_mem_nil i), fun _ => ⟨rfl, rfl⟩⟩⟩
  | cons a rest ih =>
    intro g hnd
    obtain ⟨hnot, hrest⟩ := List.nodup_cons.mp hnd
    obtain ⟨hh, hall⟩ := ih (compensateSlot f g a) hrest
    rw [List.foldl_cons]
    refine ⟨hh.trans (compensateSlot_handles f g a), fun i => ?_⟩
    by_cases hia : i = a
    · subst hia
      have hkeep := (hall i).2 (fun h => hnot h.1)
      constructor
      · intro hc
        have hfire := compensateSlot_fire f g i hc.2
        exact ⟨hkeep.1.trans hfire.1, hkeep.2.trans hfire.2⟩
      · intro hc
        have hskip := compensateSlot_skip f g i (fun h => hc ⟨List.mem_cons_self _ _, h⟩)
        rw [hskip] at hkeep ⊢
        exact hkeep
    · obtain ⟨hf, hs⟩ := compensateSlot_other f g a i hia
      have hhd : (compensateSlot f g a).camera_fn_array i = g.camera_fn_array i := by
        rw [compensateSlot_handles]
      constructor
      · intro hc
        have hmem : i ∈ rest := by
          rcases List.mem_cons.mp hc.1 with h | h
          · exact absurd h hia
          · exact h
        have := (hall i).1 ⟨hmem, by rw [hhd]; exact hc.2.1, by rw [hs]; exact hc.2.2⟩
        rw [hf] at this
        exact this
      · intro hc
        have := (hall i).2 (fun h => hc ⟨List.mem_cons_of_mem _ h.1, by
          rw [← hhd]; exact h.2.1, by rw [← hs]; exact h.2.2⟩)
        rw [hf, hs] at this
        exact this

theorem foldl_compensateSlot_skip (f : Int → Int) :
    ∀ (l : List Nat) (g : Game),
      (∀ i, i ∈ l → ¬ (g.camera_fn_array i ≠ 0 ∧ g.isSpecialCameraFunction i = true)) →
      l.foldl (compensateSlot f) g = g := by
  intro l
  induction l with
  | nil => intro g _; rfl
  | cons a rest ih =>
    intro g hno
    rw [List.foldl_cons, compensateSlot_skip f g a (hno a (List.mem_cons_self _ _))]
    exact ih g (fun i hi => hno i (List.mem_cons_of_mem _ hi))

/-- After the pass no slot has both a non-null handle and a set flag; stated for the
fold so that both the pass and its repetition can use it. -/
theorem compensation_pass_settled (f : Int → Int) (g : Game) :
    ∀ i, i < 16 →
      ¬ ((compensationPass f g).camera_fn_array i ≠ 0
          ∧ (compensationPass f g).isSpecialCameraFunction i = true) := by
  obtain ⟨hh, hall⟩ := foldl_compensateSlot f (List.range 16) g (List.nodup_range 16)
  unfold compensationPass
  generalize List.foldl (compensateSlot f) g (List.range 16) = g1 at hh hall ⊢
  intro i hi hc
  by_cases hg : g.camera_fn_array i ≠ 0 ∧ g.isSpecialCameraFunction i = true
  · have := ((hall i).1 ⟨List.mem_range.mpr hi, hg⟩).2
    rw [this] at hc
    exact absurd hc.2 (by decide)
  · have := ((hall i).2 (fun h => hg h.2)).2
    rw [this, hh] at hc
    exact hg hc

theorem compensation_pass_fire (f : Int → Int) (g : Game) (i : Nat) (hi : i < 16)
    (hfn : g.camera_fn_array i ≠ 0) (hflag : g.isSpecialCameraFunction i = true) :
    (compensationPass f g).battle_camera_data_field_4 i
        = f (g.battle_camera_data_field_4 i * 2)
      ∧ (compensationPass f g).isSpecialCameraFunction i = false := by
  obtain ⟨_, hall⟩ := foldl_compensateSlot f (List.range 16) g (List.nodup_range 16)
  unfold compensationPass
  exact (hall i).1 ⟨List.mem_range.mpr hi, hfn, hflag⟩

theorem compensation_pass_frame (f : Int → Int) (g : Game) (i : Nat)
    (hc : ¬ (i < 16 ∧ g.camera_fn_array i ≠ 0 ∧ g.isSpecialCameraFunction i = true)) :
    (compensationPass f g).battle_camera_data_field_4 i = g.battle_camera_data_field_4 i
      ∧ (compensationPass f g).isSpecialCameraFunction i = g.isSpecialCameraFunction i := by
  obtain ⟨_, hall⟩ := foldl_compensateSlot f (List.range 16) g (List.nodup_range 16)
  unfold compensationPass
  exact (hall i).2 (fun h => hc ⟨List.mem_range.mp h.1, h.2⟩)

theorem compensation_pass_handles (f : Int → Int) (g : Game) :
    (compensationPass f g).camera_fn_array = g.camera_fn_array := by
  obtain ⟨hh, _⟩ := foldl_compensateSlot f (List.range 16) g (List.nodup_range 16)
  unfold compensationPass
  exact hh

/-- C13: the pass of `ff7_execute_camera_functions` over the 16 slots leaves the
handles alone; for exactly the slots `i < 16` whose handle is non-null and whose flag
is set it replaces `field_4` by its double (the product `field_4 * 2` converted to the
type of `field_4`, so `2 * field_4` whenever that fits) and clears the flag; `field_4`
and the flag of every other slot are unchanged; afterwards no slot has both a non-null
handle and a set flag. -/
theorem compensation_pass_effect (toField4 : Int → Int) (g : Game) :
    (compensationPass toField4 g).camera_fn_array = g.camera_fn_array
      ∧ (∀ i, i < 16 → g.camera_fn_array i ≠ 0 → g.isSpecialCameraFunction i = true →
          (compensationPass toField4 g).battle_camera_data_field_4 i
              = toField4 (g.battle_camera_data_field_4 i * 2)
            ∧ (toField4 (g.battle_camera_data_field_4 i * 2)
                  = g.battle_camera_data_field_4 i * 2 →
                (compensationPass toField4 g).battle_camera_data_field_4 i
                  = 2 * g.battle_camera_data_field_4 i)
            ∧ (compensationPass toField4 g).isSpecialCameraFunction i = false)
      ∧ (∀ i, ¬ (i < 16 ∧ g.camera_fn_array i ≠ 0 ∧ g.isSpecialCameraFunction i = true) →
          (compensationPass toField4 g).battle_camera_data_field_4 i
              = g.battle_camera_data_field_4 i
            ∧ (compensationPass toField4 g).isSpecialCameraFunction i
              = g.isSpecialCameraFunction i)
      ∧ (∀ i, i < 16 →
          ¬ ((compensationPass toField4 g).camera_fn_array i ≠ 0
              ∧ (compensationPass toField4 g).isSpecialCameraFunction i = true)) := by
  refine ⟨compensation_pass_handles toField4 g, ?_, compensation_pass_frame toField4 g,
    compensation_pass_settled toField4 g⟩
  intro i hi h1 h2
  obtain ⟨hf, hs⟩ := compensation_pass_fire toField4 g i hi h1 h2
  refine ⟨hf, fun hfit => ?_, hs⟩
  rw [hf, hfit, Int.mul_comm]

/-- Slots 3 (handle set, flag set), 5 (handle null, flag set) and 7 (handle set, flag
clear) of a sample state: only slot 3 is doubled and cleared. -/
theorem compensation_pass_effect_witness :
    (compensationPass id
        (sampleGame (freshHost (memOfList 0 []) false)
          (fun i => if i = 3 ∨ i = 7 then 0x5C4000 else 0)
          (fun i => decide (i = 3 ∨ i = 5)))).battle_camera_data_field_4 3 = 200
      ∧ (compensationPass id
        (sampleGame (freshHost (memOfList 0 []) false)
          (fun i => if i = 3 ∨ i = 7 then 0x5C4000 else 0)
          (fun i => decide (i = 3 ∨ i = 5)))).isSpecialCameraFunction 3 = false
      ∧ (compensationPass id
        (sampleGame (freshHost (memOfList 0 []) false)
          (fun i => if i = 3 ∨ i = 7 then 0x5C4000 else 0)
          (fun i => decide (i = 3 ∨ i = 5)))).battle_camera_data_field_4 5 = 100
      ∧ (compensationPass id
        (sampleGame (freshHost (memOfList 0 []) false)
          (fun i => if i = 3 ∨ i = 7 then 0x5C4000 else 0)
          (fun i => decide (i = 3 ∨ i = 5)))).isSpecialCameraFunction 5 = true := by
  have h := compensation_pass_effect id
    (sampleGame (freshHost (memOfList 0 []) false)
      (fun i => if i = 3 ∨ i = 7 then 0x5C4000 else 0)
      (fun i => decide (i = 3 ∨ i = 5)))
  have h3 := h.2.1 3 (by decide) (by decide) (by decide)
  have h5 := h.2.2.1 5 (by decide)
  exact ⟨h3.1.trans (by decide), h3.2.2, h5.1.trans (by decide), h5.2.trans (by decide)⟩

theorem compensationPass_idem (f : Int → Int) (g : Game) :
    compensationPass f (compensationPass f g) = compensationPass f g := by
  have hno := (compensation_pass_settled f g)
  unfold compensationPass at hno ⊢
  exact foldl_compensateSlot_skip f (List.range 16) _
    (fun i hi => hno i (List.mem_range.mp hi))

/-- C14: `ff7_add_fn_to_camera_fn_special` returns the native allocator's slot index and
sets that slot's flag, leaving the other flags as the allocator left them. A pass that
finds the flag of slot `i < 16` set and its handle non-null doubles `field_4` once and
clears the flag; a pass that finds the flag set and the handle null changes neither; a
pass that finds the flag clear leaves `field_4` and the flag as they are, and the flag
stays clear through a whole `ff7_execute_camera_functions` call whose native part does
not touch the flags, so after the doubling a later pass does not double again, whatever
the native code did to handles and fields in between. Two consecutive passes give the
same state as one pass. -/
theorem compensation_once_per_registration (toField4 : Int → Int) :
    (∀ (add_fn : Nat → Game → Nat × Game) (function : Nat) (g : Game),
        (ff7_add_fn_to_camera_fn_special add_fn function g).1 = (add_fn function g).1
          ∧ (ff7_add_fn_to_camera_fn_special add_fn function g).2.isSpecialCameraFunction
              (add_fn function g).1 = true
          ∧ ∀ j, j ≠ (add_fn function g).1 →
              (ff7_add_fn_to_camera_fn_special add_fn function g).2.isSpecialCameraFunction j
                = (add_fn function g).2.isSpecialCameraFunction j)
      ∧ (∀ (g : Game) (i : Nat), i < 16 → g.isSpecialCameraFunction i = true →
          g.camera_fn_array i ≠ 0 →
          (compensationPass toField4 g).battle_camera_data_field_4 i
              = toField4 (g.battle_camera_data_field_4 i * 2)
            ∧ (compensationPass toField4 g).isSpecialCameraFunction i = false)
      ∧ (∀ (g : Game) (i : Nat), g.isSpecialCameraFunction i = true →
          g.camera_fn_array i = 0 →
          (compensationPass toField4 g).battle_camera_data_field_4 i
              = g.battle_camera_data_field_4 i
            ∧ (compensationPass toField4 g).isSpecialCameraFunction i = true)
      ∧ (∀ (g : Game) (i : Nat), g.isSpecialCameraFunction i = false →
          (compensationPass toField4 g).battle_camera_data_field_4 i
              = g.battle_camera_data_field_4 i
            ∧ (compensationPass toField4 g).isSpecialCameraFunction i = false)
      ∧ (∀ (native : Game → Game) (g : Game) (i : Nat),
          (∀ x, (native x).isSpecialCameraFunction = x.isSpecialCameraFunction) →
          g.isSpecialCameraFunction i = false →
          (ff7_execute_camera_functions toField4 native g).isSpecialCameraFunction i = false)
      ∧ (∀ (native : Game → Game) (g : Game) (i : Nat), i < 16 →
          (∀ x, (native x).isSpecialCameraFunction = x.isSpecialCameraFunction) →
          g.isSpecialCameraFunction i = true → g.camera_fn_array i ≠ 0 →
          (compensationPass toField4 (ff7_execute_camera_functions toField4 native g)
              ).battle_camera_data_field_4 i
            = (ff7_execute_camera_functions toField4 native g).battle_camera_data_field_4 i)
      ∧ (∀ g : Game,
          compensationPass toField4 (compensationPass toField4 g)
            = compensationPass toField4 g) := by
  have hclear : ∀ (g : Game) (i : Nat), g.isSpecialCameraFunction i = false →
      (compensationPass toField4 g).battle_camera_data_field_4 i
          = g.battle_camera_data_field_4 i
        ∧ (compensationPass toField4 g).isSpecialCameraFunction i = false := by
    intro g i hflag
    have := compensation_pass_frame toField4 g i (fun h => by
      rw [hflag] at h
      exact absurd h.2.2 (by decide))
    exact ⟨this.1, this.2.trans hflag⟩
  refine ⟨?_, ?_, ?_, hclear, ?_, ?_, compensationPass_idem toField4⟩
  · intro add_fn function g
    unfold ff7_add_fn_to_camera_fn_special
    refine ⟨rfl, by simp, fun j hj => by simp [Function.update, hj]⟩
  · intro g i hi hflag hfn
    exact compensation_pass_fire toField4 g i hi hfn hflag
  · intro g i hflag hfn
    have := compensation_pass_frame toField4 g i (fun h => h.2.1 hfn)
    exact ⟨this.1, this.2.trans hflag⟩
  · intro native g i hnat hflag
    unfold ff7_execute_camera_functions
    rw [hnat]
    exact (hclear g i hflag).2
  · intro native g i hi hnat hflag hfn
    have hc : (ff7_execute_camera_functions toField4 native g).isSpecialCameraFunction i
        = false := by
      unfold ff7_execute_camera_functions
      rw [hnat]
      exact (compensation_pass_fire toField4 g i hi hfn hflag).2
    exact (hclear _ i hc).1

/-- A special function registered in slot 3 of a sample state is compensated by the
next pass and not by the one after it. -/
theorem compensation_once_per_registration_witness :
    (compensationPass id
        (ff7_add_fn_to_camera_fn_special
          (fun fn g => (3, { g with camera_fn_array := Function.update g.camera_fn_array 3 fn }))
          0x5C4000
          (sampleGame (freshHost (memOfList 0 []) false) (fun _ => 0)
            (fun _ => false))).2).battle_camera_data_field_4 3 = 200
      ∧ (compensationPass id (compensationPass id
        (ff7_add_fn_to_camera_fn_special
          (fun fn g => (3, { g with camera_fn_array := Function.update g.camera_fn_array 3 fn }))
          0x5C4000
          (sampleGame (freshHost (memOfList 0 []) false) (fun _ => 0)
            (fun _ => false))).2)).battle_camera_data_field_4 3 = 200 := by
  have h := compensation_once_per_registration id
  have h1 := h.2.1
    (ff7_add_fn_to_camera_fn_special
      (fun fn g => (3, { g with camera_fn_array := Function.update g.camera_fn_array 3 fn }))
      0x5C4000
      (sampleGame (freshHost (memOfList 0 []) false) (fun _ => 0) (fun _ => false))).2
    3 (by decide) (by decide) (by decide)
  refine ⟨h1.1.trans (by decide), ?_⟩
  rw [h.2.2.2.2.2.2]
  exact h1.1.trans (by decide)

/-! ## The dialect wrappers -/

/-- C15: in both wrappers, once the simulation has returned `(position, wait)`, the
native executor is run on the game state as the simulation left it (cursor arrays
untouched), and the wrapper returns the native executor's state with nothing changed
but the log, to which it appends the "final position does not match" diagnostic with
the simulated and the real position if and only if they differ, and then the "final
frames to wait does not match" diagnostic with both values if and only if those
differ; if the simulation does not return, neither does the wrapper. -/
theorem wrapper_mismatch_detection (fuel : Nat) (ext : Externals)
    (native : Int → Nat → Int → Game → Game) (variationIndex : Int) (param_2 : Nat)
    (cameraScriptIdx : Int) (g : Game) :
    ff7_battle_camera_sub_5C3FD5 fuel ext native variationIndex param_2 cameraScriptIdx g
        = (ff7_battle_camera_sub_5C3FD5_simulation fuel ext variationIndex param_2
            cameraScriptIdx g).map (fun results =>
          { native variationIndex param_2 cameraScriptIdx { g with host := results.2 } with
            host :=
              { (native variationIndex param_2 cameraScriptIdx
                  { g with host := results.2 }).host with
                log :=
                  (native variationIndex param_2 cameraScriptIdx
                      { g with host := results.2 }).host.log
                    ++ (if results.1.1 ≠
                          ((native variationIndex param_2 cameraScriptIdx
                            { g with host := results.2 }).battle_camera_position_BE1130
                              variationIndex).current_position then
                        [LogMsg.errorPositionMismatch true results.1.1
                          ((native variationIndex param_2 cameraScriptIdx
                            { g with host := results.2 }).battle_camera_position_BE1130
                              variationIndex).current_position]
                      else [])
                    ++ (if results.1.2 ≠
                          ((native variationIndex param_2 cameraScriptIdx
                            { g with host := results.2 }).battle_camera_position_BE1130
                              variationIndex).frames_to_wait then
                        [LogMsg.errorFramesMismatch true results.1.2
                          ((native variationIndex param_2 cameraScriptIdx
                            { g with host := results.2 }).battle_camera_position_BE1130
                              variationIndex).frames_to_wait]
                      else []) } })
      ∧ ff7_battle_camera_sub_5C23D1 fuel ext native variationIndex param_2 cameraScriptIdx g
        = (ff7_battle_camera_sub_5C23D1_simulation fuel ext variationIndex param_2
            cameraScriptIdx g).map (fun results =>
          { native variationIndex param_2 cameraScriptIdx { g with host := results.2 } with
            host :=
              { (native variationIndex param_2 cameraScriptIdx
                  { g with host := results.2 }).host with
                log :=
                  (native variationIndex param_2 cameraScriptIdx
                      { g with host := results.2 }).host.log
                    ++ (if results.1.1 ≠
                          ((native variationIndex param_2 cameraScriptIdx
                            { g with host := results.2 }).battle_camera_position_BE10F0
                              variationIndex).current_position then
                        [LogMsg.errorPositionMismatch false results.1.1
                          ((native variationIndex param_2 cameraScriptIdx
                            { g with host := results.2 }).battle_camera_position_BE10F0
                              variationIndex).current_position]
                      else [])
                    ++ (if results.1.2 ≠
                          ((native variationIndex param_2 cameraScriptIdx
                            { g with host := results.2 }).battle_camera_position_BE10F0
                              variationIndex).frames_to_wait then
                        [LogMsg.errorFramesMismatch false results.1.2
                          ((native variationIndex param_2 cameraScriptIdx
                            { g with host := results.2 }).battle_camera_position_BE10F0
                              variationIndex).frames_to_wait]
                      else []) } }) := by
  constructor
  · unfold ff7_battle_camera_sub_5C3FD5
    cases ff7_battle_camera_sub_5C3FD5_simulation fuel ext variationIndex param_2
        cameraScriptIdx g with
    | none => rfl
    | some results =>
      simp only [Option.map_some']
      congr 1
      generalize native variationIndex param_2 cameraScriptIdx { g with host := results.2 } = out
      split_ifs <;> simp [Host.emit]
  · unfold ff7_battle_camera_sub_5C23D1
    cases ff7_battle_camera_sub_5C23D1_simulation fuel ext variationIndex param_2
        cameraScriptIdx g with
    | none => rfl
    | some results =>
      simp only [Option.map_some']
      congr 1
      generalize native variationIndex param_2 cameraScriptIdx { g with host := results.2 } = out
      split_ifs <;> simp [Host.emit]

/-- The simulation of `[0xD8, 1, ..., 9, 0xFF]` predicts position 10; a native executor
that leaves the cursor at position 11 makes the wrapper log exactly the position
diagnostic with both values, and the native cursor stands. -/
theorem wrapper_mismatch_detection_witness :
    (ff7_battle_camera_sub_5C3FD5 5 sampleExternals sampleNative 0 0 (-1)
        (sampleGame (freshHost (memOfList 1000 [0xD8, 1, 2, 3, 4, 5, 6, 7, 8, 9, 0xFF]) false)
          (fun _ => 0) (fun _ => false))).map
        (fun gF => (gF.host.log, gF.battle_camera_position_BE1130 0))
      = some ([LogMsg.errorPositionMismatch true 10 11],
          { current_position := 11, frames_to_wait := 0 }) := by
  rw [(wrapper_mismatch_detection 5 sampleExternals sampleNative 0 0 (-1)
    (sampleGame (freshHost (memOfList 1000 [0xD8, 1, 2, 3, 4, 5, 6, 7, 8, 9, 0xFF]) false)
      (fun _ => 0) (fun _ => false))).1]
  decide

/-! ## The end-of-script opcode -/

/-- A call of the simulator on the opcode 0xFF with either dialect table: one loop
iteration, returning the cursor it was given; memory and the Patched-Address Set are
unchanged. -/
theorem end_of_script_call (h : Host) (sp p w : Nat) (t : OpcodeTables)
    (ht : t = tables_5C3FD5 ∨ t = tables_5C23D1) (hp : p < 65536)
    (hop : readByte h.mem (ptrAdd sp p) = 0xFF) (fuel : Nat) :
    ∃ hAfter, simulateCameraScript (fuel + 1) h sp p w t = some ((p, w), hAfter)
      ∧ hAfter.mem = h.mem
      ∧ hAfter.scriptArgAddressPatched = h.scriptArgAddressPatched := by
  have hnumF : mapFind 0xFF t.numArgsOpCode = some (-1) := by
    rcases ht with rfl | rfl <;> decide
  have hidxF : mapFind 0xFF t.argIdxDoubleOpCode = none := by
    rcases ht with rfl | rfl <;> decide
  have hdeF : (0xFF : Nat) ∈ t.deactiveOpCodes := by
    rcases ht with rfl | rfl <;> decide
  have hop0 : readByte (h.emitIfTracing .traceStart).mem (ptrAdd sp p) = 0xFF := by
    simpa using hop
  have hbody := loopBody_recognised sp t
    { host := h.emitIfTracing .traceStart, currentPosition := p, framesToWait := w,
      isScriptActive := true } (-1)
    (by rw [hop0]; decide) (by rw [hop0]; decide) (by rw [hop0]; decide)
    (by rw [hop0]; exact hnumF)
  simp only [hop0, hidxF, if_pos hdeF] at hbody
  have e : toUInt16 ((((p + 1) % 65536 : Nat) : Int) + -1) = p := by
    unfold toUInt16
    omega
  rw [e] at hbody
  have hrun := simulate_one_step fuel h sp p w t (by rw [hbody])
  rw [hbody] at hrun
  exact ⟨_, hrun, by simp, by simp⟩

/-- C21: in both dialect tables 0xFF has argument count -1 and is terminal; hence for
every memory, 16-bit position `p` with byte 0xFF at `p` and every `framesToWait = w`,
`simulateCameraScript` performs exactly one loop iteration and returns `(p, w)`, the
index of the 0xFF byte itself, with memory and the Patched-Address Set unchanged; and
simulating again from the returned cursor in the state the first call left returns the
same cursor `(p, w)`. -/
theorem end_of_script_fixed_point (h : Host) (scriptPtr p w : Nat) (t : OpcodeTables)
    (ht : t = tables_5C3FD5 ∨ t = tables_5C23D1) (hp : p < 65536)
    (hop : readByte h.mem (ptrAdd scriptPtr p) = 0xFF) :
    mapFind 0xFF t.numArgsOpCode = some (-1)
      ∧ 0xFF ∈ t.deactiveOpCodes
      ∧ simulateCameraScript 0 h scriptPtr p w t = none
      ∧ ∀ fuel, ∃ hAfter,
          simulateCameraScript (fuel + 1) h scriptPtr p w t = some ((p, w), hAfter)
          ∧ hAfter.mem = h.mem
          ∧ hAfter.scriptArgAddressPatched = h.scriptArgAddressPatched
          ∧ ∀ fuel2, ∃ hAgain,
              simulateCameraScript (fuel2 + 1) hAfter scriptPtr p w t = some ((p, w), hAgain)
              ∧ hAgain.mem = h.mem
              ∧ hAgain.scriptArgAddressPatched = h.scriptArgAddressPatched := by
  refine ⟨by rcases ht with rfl | rfl <;> decide, by rcases ht with rfl | rfl <;> decide,
    simulate_zero h scriptPtr p w t, fun fuel => ?_⟩
  obtain ⟨hAfter, hrun, hmem, hset⟩ := end_of_script_call h scriptPtr p w t ht hp hop fuel
  refine ⟨hAfter, hrun, hmem, hset, fun fuel2 => ?_⟩
  obtain ⟨hAgain, hrun2, hmem2, hset2⟩ :=
    end_of_script_call hAfter scriptPtr p w t ht hp (by rw [hmem]; exact hop) fuel2
  exact ⟨hAgain, hrun2, hmem2.trans hmem, hset2.trans hset⟩

/-- The script `[0xD9, 0xFF]` entered at its end-of-script opcode (position 1) with 4
frames to wait and the 5C23D1 tables: the call returns `(1, 4)`. -/
theorem end_of_script_fixed_point_witness :
    ∃ hAfter,
      simulateCameraScript 1 (freshHost (memOfList 1000 [0xD9, 0xFF]) false) 1000 1 4
          tables_5C23D1 = some ((1, 4), hAfter)
      ∧ hAfter.mem = (freshHost (memOfList 1000 [0xD9, 0xFF]) false).mem :=
  match (end_of_script_fixed_point (freshHost (memOfList 1000 [0xD9, 0xFF]) false) 1000 1 4
      tables_5C23D1 (Or.inr rfl) (by decide) (by decide)).2.2.2 0 with
  | ⟨hAfter, hrun, hmem, _⟩ => ⟨hAfter, hrun, hmem⟩

/-! ## Well-formedness of the dialect tables -/

/-- A table whose doubled-argument entries pass the check entry by entry answers every
successful lookup of a doubled-argument offset with an argument count above it. -/
theorem doubled_offsets_inside (t : OpcodeTables)
    (hcheck : ∀ kv ∈ t.argIdxDoubleOpCode,
      (match mapFind kv.1 t.numArgsOpCode with
        | some numArgs => decide (0 ≤ kv.2 ∧ kv.2 < numArgs)
        | none => false) = true)
    (op : Nat) (d : Int) (hd : mapFind op t.argIdxDoubleOpCode = some d) :
    ∃ numArgs, mapFind op t.numArgsOpCode = some numArgs ∧ 0 ≤ d ∧ d < numArgs := by
  have hk := hcheck (op, d) (mapFind_some_mem op d _ hd)
  dsimp only at hk
  cases hn : mapFind op t.numArgsOpCode with
  | none =>
    rw [hn] at hk
    cases hk
  | some numArgs =>
    rw [hn] at hk
    exact ⟨numArgs, rfl, of_decide_eq_true hk⟩

theorem terminal_opcodes_are_keys (t : OpcodeTables)
    (hcheck : ∀ op ∈ t.deactiveOpCodes, (mapFind op t.numArgsOpCode).isSome = true)
    (op : Nat) (hop : op ∈ t.deactiveOpCodes) :
    ∃ numArgs, mapFind op t.numArgsOpCode = some numArgs :=
  Option.isSome_iff_exists.mp (hcheck op hop)

/-- C22: in each of the two dialect tables, every opcode with a doubled-argument offset
`d` is a key of `numArgsOpCode` with `0 ≤ d < numArgs` (the doubled byte lies inside the
opcode's own argument block), and every opcode of `deactiveOpCodes` is a key of
`numArgsOpCode` (so a terminal opcode is never treated as unrecognised). -/
theorem dialect_tables_well_formed :
    (∀ (op : Nat) (d : Int), mapFind op tables_5C3FD5.argIdxDoubleOpCode = some d →
        ∃ numArgs, mapFind op tables_5C3FD5.numArgsOpCode = some numArgs
          ∧ 0 ≤ d ∧ d < numArgs)
      ∧ (∀ op, op ∈ tables_5C3FD5.deactiveOpCodes →
          ∃ numArgs, mapFind op tables_5C3FD5.numArgsOpCode = some numArgs)
      ∧ (∀ (op : Nat) (d : Int), mapFind op tables_5C23D1.argIdxDoubleOpCode = some d →
          ∃ numArgs, mapFind op tables_5C23D1.numArgsOpCode = some numArgs
            ∧ 0 ≤ d ∧ d < numArgs)
      ∧ (∀ op, op ∈ tables_5C23D1.deactiveOpCodes →
          ∃ numArgs, mapFind op tables_5C23D1.numArgsOpCode = some numArgs) :=
  ⟨doubled_offsets_inside tables_5C3FD5 (by decide),
   terminal_opcodes_are_keys tables_5C3FD5 (by decide),
   doubled_offsets_inside tables_5C23D1 (by decide),
   terminal_opcodes_are_keys tables_5C23D1 (by decide)⟩

end FFNx
